import Mathlib

/-!
Verification of the memory-lifecycle core of the companion-agent backend.

The Python sources are shallowly embedded:
* strings are Lean `String` (Python `len` counts code points, as does
  `String.length`);
* Python `float` arithmetic on quantities that stay exact (integer and
  decimal literals added, multiplied and compared within small magnitudes)
  is embedded as `ℚ`; genuinely transcendental quantities (`math.exp`,
  `math.log1p`) are embedded as `ℝ`;
* `datetime` values are embedded at the granularity the code consumes
  them: epoch-second rationals where only differences in seconds or days
  are taken (forgetting curve), and calendar dates where only calendar
  fields are read (temporal tree);
* Python dictionaries are embedded as insertion-ordered association
  lists (`List (key × value)`), with lookup of the first matching key and
  in-place replacement on overwrite, matching `dict` semantics;
* `uuid.uuid4()` identifier generation is embedded as a monotone counter
  held in the owning structure, which preserves exactly the property the
  code relies on: freshly generated ids are pairwise distinct.
-/

/-! ### Token estimator (`backend/agent/context.py`, `approx_tokens`) -/

/-- A character inside the CJK ideograph block tested by the source,
`'一' <= c <= '鿿'`. -/
def isCJK (c : Char) : Bool := decide ('一' ≤ c ∧ c ≤ '鿿')

/-- Number of CJK ideographs in a character list (`chinese_chars` in the
source). -/
def cjkCount (s : List Char) : ℕ := (s.filter isCJK).length

/-- `approx_tokens` from `backend/agent/context.py`.

The float test `chinese_chars / total_chars > 0.3` is embedded as the
exact integer test `3 * total < 10 * chinese`: for any list sizes the
rounding error of the float quotient is far smaller than the gap
`1 / (10 * total)` between the two sides whenever they differ, so the
float comparison and the exact comparison agree.  Likewise
`int(total_chars / 1.5)` computes `⌊2 * total / 3⌋` exactly. -/
def approx_tokens (text : String) : ℕ :=
  if text = "" then 0
  else
    let total := text.length
    let chinese := cjkCount text.data
    if 3 * total < 10 * chinese then max 1 (2 * total / 3)
    else max 1 (total / 4)

/-! ### Context assembler (`backend/agent/context.py`) -/

/-- `ContextBudget` from `backend/agent/context.py`. -/
structure ContextBudget where
  persona : ℕ := 450
  state : ℕ := 300
  memory : ℕ := 900
  tool : ℕ := 600
  max_total : ℕ := 2200

namespace ContextAssembler

/-- `ContextAssembler._trim`: keep the text if it fits the token budget,
otherwise cut to `max_tokens * 4` characters and append an ellipsis. -/
def trim (text : String) (max_tokens : ℕ) : String :=
  if approx_tokens text ≤ max_tokens then text
  else String.mk (text.data.take (max_tokens * 4)) ++ "…"

/-- The memory-card loop of `ContextAssembler.assemble`: cards are taken
in order, a card is dropped and iteration stops as soon as adding its
estimated tokens would push the running total over the budget. -/
def selectCards (budget : ℕ) : List String → ℕ → List String
  | [], _ => []
  | c :: rest, used =>
    let t := approx_tokens c
    if budget < used + t then []
    else c :: selectCards budget rest (used + t)

/-- Result record of `ContextAssembler.assemble`. -/
structure Assembled where
  persona : String
  state : String
  memory_cards : List String
  user_input : String
  estimated_tokens : ℕ

/-- Sum of estimated tokens of a card list (`mem_used` after the loop). -/
def cardsTokenSum (cards : List String) : ℕ := (cards.map approx_tokens).sum

/-- `ContextAssembler.assemble` from `backend/agent/context.py`. -/
def assemble (b : ContextBudget) (persona state : String)
    (memory_cards : List String) (user_input : String) : Assembled :=
  let p := trim persona b.persona
  let st := trim state b.state
  let cards := selectCards b.memory memory_cards 0
  { persona := p
    state := st
    memory_cards := cards
    user_input := user_input
    estimated_tokens :=
      approx_tokens p + approx_tokens st + cardsTokenSum cards
        + approx_tokens user_input }

end ContextAssembler

/-! #### Lemmas about card selection -/

/-- `selectCards` either keeps the whole list (which then fits the
budget, unless the list is empty), or returns a proper fitting prefix,
stopping exactly at the first card that would overflow. -/
theorem selectCards_spec (cards : List String) (budget used : ℕ)
    (hu : used ≤ budget) :
    (ContextAssembler.selectCards budget cards used = cards ∧
      (cards = [] ∨ used + ContextAssembler.cardsTokenSum cards ≤ budget)) ∨
    (∃ l c r, cards = l ++ c :: r ∧
      ContextAssembler.selectCards budget cards used = l ∧
      used + ContextAssembler.cardsTokenSum l ≤ budget ∧
      budget < used + ContextAssembler.cardsTokenSum l + approx_tokens c) := by
  induction cards generalizing used with
  | nil => exact Or.inl ⟨rfl, Or.inl rfl⟩
  | cons c rest ih =>
    by_cases h : budget < used + approx_tokens c
    · refine Or.inr ⟨[], c, rest, rfl, ?_, ?_, ?_⟩
      · simp [ContextAssembler.selectCards, h]
      · simp [ContextAssembler.cardsTokenSum]
        omega
      · simpa [ContextAssembler.cardsTokenSum] using h
    · have hsel : ContextAssembler.selectCards budget (c :: rest) used =
        c :: ContextAssembler.selectCards budget rest (used + approx_tokens c) := by
        simp [ContextAssembler.selectCards, h]
      rcases ih (used + approx_tokens c) (Nat.le_of_not_lt h) with
        ⟨h1, h2⟩ | ⟨l, c', r, hsplit, hres, hfit, hover⟩
      · refine Or.inl ⟨by rw [hsel, h1], Or.inr ?_⟩
        rcases h2 with h2 | h2
        · subst h2
          simp only [ContextAssembler.cardsTokenSum, List.map_cons, List.map_nil,
            List.sum_cons, List.sum_nil]
          omega
        · simp only [ContextAssembler.cardsTokenSum, List.map_cons, List.sum_cons] at h2 ⊢
          omega
      · refine Or.inr ⟨c :: l, c', r, by simp [hsplit], by rw [hsel, hres], ?_, ?_⟩
        · simp only [ContextAssembler.cardsTokenSum, List.map_cons, List.sum_cons] at hfit ⊢
          omega
        · simp only [ContextAssembler.cardsTokenSum, List.map_cons, List.sum_cons] at hover ⊢
          omega

/-! #### Auxiliary string lemmas -/

lemma string_eq_empty_iff (s : String) : s = "" ↔ s.data = [] := by
  constructor
  · intro h
    rw [h]
  · intro h
    exact String.ext (by rw [h])

lemma cjkCount_append (l₁ l₂ : List Char) :
    cjkCount (l₁ ++ l₂) = cjkCount l₁ + cjkCount l₂ := by
  simp [cjkCount, List.filter_append]

lemma cjkCount_replicate_cjk (n : ℕ) (c : Char) (h : isCJK c = true) :
    cjkCount (List.replicate n c) = n := by
  simp [cjkCount, List.filter_replicate, h]

lemma cjkCount_le_length (l : List Char) : cjkCount l ≤ l.length := by
  simpa [cjkCount] using List.length_filter_le isCJK l

/-- The float test `chinese / total > 0.3` agrees with the exact integer
test `3 * total < 10 * chinese`. -/
lemma cjk_fraction_gt_iff (c t : ℕ) (ht : 0 < t) :
    (3 : ℚ) / 10 < (c : ℚ) / (t : ℚ) ↔ 3 * t < 10 * c := by
  rw [div_lt_div_iff (by norm_num) (by exact_mod_cast ht)]
  constructor
  · intro h
    have : (3 * t : ℚ) < (10 * c : ℚ) := by push_cast; linarith
    exact_mod_cast this
  · intro h
    have : (3 * t : ℚ) < (10 * c : ℚ) := by exact_mod_cast h
    push_cast at this
    linarith

/-- Claim C1: the token estimator returns 0 on the empty string; on a
non-empty string whose CJK-character fraction is at most 3/10 it returns
`max 1 (len / 4)` (integer division), and on a string whose CJK fraction
exceeds 3/10 it returns `max 1 ⌊len / 1.5⌋ = max 1 (2 * len / 3)`. -/
theorem token_estimator_spec :
    approx_tokens "" = 0 ∧
    ∀ s : String, s ≠ "" →
      (((cjkCount s.data : ℚ) / (s.length : ℚ) ≤ 3 / 10 →
          approx_tokens s = max 1 (s.length / 4)) ∧
        ((3 : ℚ) / 10 < (cjkCount s.data : ℚ) / (s.length : ℚ) →
          approx_tokens s = max 1 (2 * s.length / 3))) := by
  refine ⟨rfl, fun s hs => ?_⟩
  have hlen : 0 < s.length := by
    have hs' : s.data ≠ [] := fun h => hs ((string_eq_empty_iff s).mpr h)
    exact List.length_pos.mpr hs'
  have hiff := cjk_fraction_gt_iff (cjkCount s.data) s.length hlen
  constructor
  · intro hle
    have hnot : ¬ 3 * s.length < 10 * cjkCount s.data := by
      intro hcon
      exact absurd (hiff.mpr hcon) (not_lt.mpr hle)
    simp [approx_tokens, hs, hnot]
  · intro hgt
    have hcon : 3 * s.length < 10 * cjkCount s.data := hiff.mp hgt
    simp [approx_tokens, hs, hcon]

/-- Witness for C1: a pure-ASCII string takes the `len / 4` branch and a
pure-CJK string takes the `2 * len / 3` branch. -/
theorem token_estimator_spec_witness :
    approx_tokens "abcdefgh" = max 1 ("abcdefgh".length / 4) ∧
    approx_tokens "中中中" = max 1 (2 * "中中中".length / 3) := by
  constructor
  · refine (token_estimator_spec.2 "abcdefgh" (by decide)).1 ?_
    have h : cjkCount "abcdefgh".data = 0 := by decide
    rw [h]
    norm_num
  · refine (token_estimator_spec.2 "中中中" (by decide)).2 ?_
    have h : cjkCount "中中中".data = 3 := by decide
    have h2 : ("中中中" : String).length = 3 := by decide
    rw [h, h2]
    norm_num

/-- Claim C4: whenever the cumulative estimated tokens of the input
cards exceed the memory budget, the card list returned by `assemble` is
a strict prefix of the input, taken in input order, and iteration
stopped at the first card whose estimated tokens would push the running
total over the budget. -/
theorem assemble_memory_cards_strict_prefix
    (b : ContextBudget) (persona state user_input : String)
    (cards : List String)
    (hover : b.memory < ContextAssembler.cardsTokenSum cards) :
    ∃ l c r, cards = l ++ c :: r ∧
      (ContextAssembler.assemble b persona state cards user_input).memory_cards = l ∧
      ContextAssembler.cardsTokenSum l ≤ b.memory ∧
      b.memory < ContextAssembler.cardsTokenSum l + approx_tokens c := by
  rcases selectCards_spec cards b.memory 0 (Nat.zero_le _) with
    ⟨_, h2⟩ | ⟨l, c, r, hsplit, hres, hfit, hov⟩
  · rcases h2 with h2 | h2
    · subst h2
      exact absurd hover (by simp [ContextAssembler.cardsTokenSum])
    · omega
  · exact ⟨l, c, r, hsplit, by simpa [ContextAssembler.assemble] using hres,
      by omega, by omega⟩

/-- Witness for C4: with a memory budget of 1 token, a single 8-letter
card (2 estimated tokens) overflows immediately and the returned card
list is the empty strict prefix. -/
theorem assemble_memory_cards_strict_prefix_witness :
    ∃ l c r, ["abcdefgh"] = l ++ c :: r ∧
      (ContextAssembler.assemble { memory := 1 } "p" "s" ["abcdefgh"] "u").memory_cards = l ∧
      ContextAssembler.cardsTokenSum l ≤ 1 ∧
      1 < ContextAssembler.cardsTokenSum l + approx_tokens c :=
  assemble_memory_cards_strict_prefix { memory := 1 } "p" "s" "u" ["abcdefgh"]
    (by decide)

/-- Claim C10: the per-section character truncation `_trim` does not
enforce the token budget on CJK text: there is a string for which the
trimmed text is still estimated at 1200 tokens, far above the stated
450-token persona budget (1200 = ⌊(450 * 4 + 1) / 1.5⌋, about 2.67
times the budget). -/
theorem trim_cjk_exceeds_budget :
    ∃ s : String, 450 < approx_tokens (ContextAssembler.trim s 450) ∧
      approx_tokens (ContextAssembler.trim s 450) = 1200 := by
  refine ⟨String.mk (List.replicate 2000 '中'), ?_⟩
  have hcjk : isCJK '中' = true := by decide
  have hs_data : (String.mk (List.replicate 2000 '中')).data = List.replicate 2000 '中' := rfl
  have hs_len : (String.mk (List.replicate 2000 '中')).length = 2000 :=
    List.length_replicate 2000 '中'
  have hs_ne : String.mk (List.replicate 2000 '中') ≠ "" := by
    intro h
    have hd := (string_eq_empty_iff _).mp h
    have hlen := congrArg List.length hd
    rw [List.length_replicate, List.length_nil] at hlen
    exact absurd hlen (by norm_num)
  have htok : approx_tokens (String.mk (List.replicate 2000 '中')) = 1333 := by
    rw [approx_tokens, if_neg hs_ne, hs_len, hs_data,
      cjkCount_replicate_cjk 2000 '中' hcjk]
    norm_num
  have htake : (List.replicate 2000 '中').take (450 * 4) = List.replicate 1800 '中' := by
    rw [List.take_replicate]
    norm_num
  have htrim : ContextAssembler.trim (String.mk (List.replicate 2000 '中')) 450 =
      String.mk (List.replicate 1800 '中') ++ "…" := by
    rw [ContextAssembler.trim, if_neg (by rw [htok]; norm_num), hs_data, htake]
  have hdata2 : (String.mk (List.replicate 1800 '中') ++ "…").data =
      List.replicate 1800 '中' ++ ['…'] :=
    String.data_append _ _
  have hne2 : String.mk (List.replicate 1800 '中') ++ "…" ≠ "" := by
    intro h
    have hd := (string_eq_empty_iff _).mp h
    rw [hdata2] at hd
    have hlen := congrArg List.length hd
    rw [List.length_append, List.length_replicate, List.length_nil] at hlen
    exact absurd hlen (by norm_num)
  have hlen2 : (String.mk (List.replicate 1800 '中') ++ "…").length = 1801 := by
    show (String.mk (List.replicate 1800 '中') ++ "…").data.length = 1801
    rw [hdata2, List.length_append, List.length_replicate]
    rfl
  have hcount2 : cjkCount (String.mk (List.replicate 1800 '中') ++ "…").data = 1800 := by
    rw [hdata2, cjkCount_append, cjkCount_replicate_cjk 1800 '中' hcjk]
    have h0 : cjkCount ['…'] = 0 := by decide
    rw [h0]
  have htok2 : approx_tokens (String.mk (List.replicate 1800 '中') ++ "…") = 1200 := by
    rw [approx_tokens, if_neg hne2]
    simp only [hlen2, hcount2]
    norm_num
  rw [htrim, htok2]
  norm_num

/-! ### Data model (`memory_framework/schema/models.py`) -/

/-- A calendar date; the projection of a Python `datetime` that the
temporal tree reads (`dt.year`, `dt.month`, `dt.day`). -/
structure Date where
  year : ℕ
  month : ℕ
  day : ℕ
deriving DecidableEq

/-- `MemoryType` from `schema/models.py`. -/
inductive MemoryType where
  | episodic
  | semantic
  | procedural
deriving DecidableEq

/-- `MemoryNode` from `schema/models.py`.  `timestamp` is the calendar
date the tree keys on; `created_at`, `updated_at`, `last_mentioned` and
`mention_history` are epoch-second rationals, the projection the
forgetting curve reads (only differences of these values are used). -/
structure MemoryNode where
  id : String
  timestamp : Date
  time_grain : String
  content : String
  detail : Option String
  raw_conversation : Option String
  memory_type : MemoryType
  emotion_tags : List String
  topic_tags : List String
  base_importance : ℚ
  current_strength : ℝ
  mention_count : ℕ
  last_mentioned : Option ℚ
  mention_history : List ℚ
  parent_id : Option String
  children_ids : List String
  linked_entities : List String
  created_at : ℚ
  updated_at : ℚ
  is_consolidated : Bool

/-- The dataclass defaults of `MemoryNode`; the non-deterministic
defaults (`uuid4` id, `datetime.now` timestamps) are taken as explicit
arguments. -/
def MemoryNode.mkDefault (id : String) (timestamp : Date) (now : ℚ) : MemoryNode :=
  { id := id
    timestamp := timestamp
    time_grain := "event"
    content := ""
    detail := none
    raw_conversation := none
    memory_type := MemoryType.episodic
    emotion_tags := []
    topic_tags := []
    base_importance := 1/2
    current_strength := 1
    mention_count := 0
    last_mentioned := none
    mention_history := []
    parent_id := none
    children_ids := []
    linked_entities := []
    created_at := now
    updated_at := now
    is_consolidated := false }

/-- `MemoryNode.calculate_effective_importance` from `schema/models.py`:
`min(1, base_importance * current_strength + min(0.3, 0.05 * mention_count))`. -/
noncomputable def MemoryNode.calculate_effective_importance (m : MemoryNode) : ℝ :=
  min 1 ((m.base_importance : ℝ) * m.current_strength
    + min 0.3 ((m.mention_count : ℝ) * 0.05))

/-! ### Forgetting curve (`memory_plugins/tree_graph/core/forgetting_curve.py`) -/

/-- `ForgettingConfig` from `forgetting_curve.py`; the float constants
are embedded as the exact rationals they denote. -/
structure ForgettingConfig where
  base_decay_rate : ℚ
  min_strength : ℚ
  mention_boost : ℚ
  importance_decay_factor : ℚ
  repetition_decay_factor : ℚ
  review_intervals : List ℕ

/-- The default `ForgettingConfig` (including the `__post_init__`
review-interval list). -/
def defaultForgettingConfig : ForgettingConfig :=
  { base_decay_rate := 3/10
    min_strength := 1/10
    mention_boost := 2/5
    importance_decay_factor := 1/2
    repetition_decay_factor := 1/5
    review_intervals := [1, 2, 4, 7, 15, 30, 60, 120] }

namespace ForgettingCurve

/-- `ForgettingCurve.calculate_stability`:
`1 + importance * importance_decay_factor
   + log1p(mention_count) * repetition_decay_factor
   + 0.1 * len(emotion_tags)`. -/
noncomputable def calculate_stability (cfg : ForgettingConfig) (m : MemoryNode) : ℝ :=
  1 + (m.base_importance : ℝ) * (cfg.importance_decay_factor : ℝ)
    + Real.log (1 + (m.mention_count : ℝ)) * (cfg.repetition_decay_factor : ℝ)
    + 0.1 * (m.emotion_tags.length : ℝ)

/-- `memory.last_mentioned or memory.created_at` (a datetime is always
truthy, so this is exactly the `Option.getD`). -/
def lastReinforced (m : MemoryNode) : ℚ :=
  m.last_mentioned.getD m.created_at

/-- `(now - last_reinforced).total_seconds() / 86400`. -/
def days_elapsed (m : MemoryNode) (now : ℚ) : ℚ :=
  (now - lastReinforced m) / 86400

/-- `ForgettingCurve.calculate_retention`: `1.0` when no time has
elapsed, otherwise `max(min_strength, exp(-days / (stability * 10)))`. -/
noncomputable def calculate_retention (cfg : ForgettingConfig) (m : MemoryNode)
    (now : ℚ) : ℝ :=
  if days_elapsed m now ≤ 0 then 1
  else max (cfg.min_strength : ℝ)
    (Real.exp (-(days_elapsed m now : ℝ) / (calculate_stability cfg m * 10)))

/-- `ForgettingCurve.update_memory_strength` (the state change; the
Python method also returns the new strength). -/
noncomputable def update_memory_strength (cfg : ForgettingConfig) (m : MemoryNode)
    (now : ℚ) : MemoryNode :=
  { m with current_strength := calculate_retention cfg m now, updated_at := now }

/-- `ForgettingCurve._adjust_importance_by_review_timing`: when there
are at least two recorded mentions and the average inter-mention
interval (in whole days, `timedelta.days` floors) is less than half the
ideal review interval for the current mention count, bump the base
importance by 0.05 (capped at 1.0). -/
noncomputable def adjust_importance_by_review_timing (cfg : ForgettingConfig)
    (m : MemoryNode) : MemoryNode :=
  if m.mention_history.length < 2 then m
  else
    let sorted := m.mention_history.mergeSort (fun a b => decide (a ≤ b))
    let intervals := (sorted.zip sorted.tail).map
      (fun p => (⌊(p.2 - p.1) / 86400⌋ : ℤ))
    if intervals = [] then m
    else
      let avg : ℚ := ((intervals.map (fun i => (i : ℚ))).sum) / (intervals.length : ℚ)
      let ideal : ℕ := cfg.review_intervals.getD
        (min (m.mention_history.length - 1) (cfg.review_intervals.length - 1)) 0
      if avg < (ideal : ℚ) * (1/2) then
        { m with base_importance := min 1 (m.base_importance + 1/20) }
      else m

/-- `ForgettingCurve.reinforce_memory`: compute the pre-reinforcement
retention, set `current_strength = min(1, retention + mention_boost)`,
record the mention, then adjust the base importance from the review
timing. -/
noncomputable def reinforce_memory (cfg : ForgettingConfig) (m : MemoryNode)
    (now : ℚ) : MemoryNode :=
  let current_retention := calculate_retention cfg m now
  let new_strength := min 1 (current_retention + (cfg.mention_boost : ℝ))
  adjust_importance_by_review_timing cfg
    { m with current_strength := new_strength
             mention_count := m.mention_count + 1
             last_mentioned := some now
             mention_history := m.mention_history ++ [now]
             updated_at := now }

end ForgettingCurve

/-! #### Forgetting-curve lemmas -/

lemma stability_pos (cfg : ForgettingConfig) (m : MemoryNode)
    (him : 0 ≤ m.base_importance)
    (hf : 0 ≤ cfg.importance_decay_factor) (hr : 0 ≤ cfg.repetition_decay_factor) :
    0 < ForgettingCurve.calculate_stability cfg m := by
  unfold ForgettingCurve.calculate_stability
  have h1 : (0:ℝ) ≤ (m.base_importance : ℝ) * (cfg.importance_decay_factor : ℝ) :=
    mul_nonneg (by exact_mod_cast him) (by exact_mod_cast hf)
  have hn : (0:ℝ) ≤ (m.mention_count : ℝ) := Nat.cast_nonneg _
  have h2 : (0:ℝ) ≤ Real.log (1 + (m.mention_count : ℝ)) :=
    Real.log_nonneg (by linarith)
  have h3 : (0:ℝ) ≤ Real.log (1 + (m.mention_count : ℝ)) * (cfg.repetition_decay_factor : ℝ) :=
    mul_nonneg h2 (by exact_mod_cast hr)
  have h4 : (0:ℝ) ≤ 0.1 * (m.emotion_tags.length : ℝ) := by positivity
  linarith

lemma retention_ge_min (cfg : ForgettingConfig) (m : MemoryNode) (now : ℚ)
    (hmin : cfg.min_strength ≤ 1) :
    (cfg.min_strength : ℝ) ≤ ForgettingCurve.calculate_retention cfg m now := by
  unfold ForgettingCurve.calculate_retention
  split
  · exact_mod_cast hmin
  · exact le_max_left _ _

lemma retention_le_one (cfg : ForgettingConfig) (m : MemoryNode) (now : ℚ)
    (hmin : cfg.min_strength ≤ 1)
    (hs : 0 < ForgettingCurve.calculate_stability cfg m) :
    ForgettingCurve.calculate_retention cfg m now ≤ 1 := by
  unfold ForgettingCurve.calculate_retention
  split
  · exact le_refl 1
  · rename_i hpos
    apply max_le
    · exact_mod_cast hmin
    · rw [Real.exp_le_one_iff]
      have hd : (0:ℝ) < ((ForgettingCurve.days_elapsed m now : ℚ) : ℝ) := by
        exact_mod_cast lt_of_not_le hpos
      have hs10 : (0:ℝ) < ForgettingCurve.calculate_stability cfg m * 10 := by linarith
      apply div_nonpos_of_nonpos_of_nonneg (by linarith) (by linarith)

lemma retention_eq_one_of_nonpos (cfg : ForgettingConfig) (m : MemoryNode) (now : ℚ)
    (h : ForgettingCurve.days_elapsed m now ≤ 0) :
    ForgettingCurve.calculate_retention cfg m now = 1 := by
  unfold ForgettingCurve.calculate_retention
  rw [if_pos h]

lemma retention_antitone (cfg : ForgettingConfig) (m : MemoryNode)
    (hs : 0 < ForgettingCurve.calculate_stability cfg m)
    (n₁ n₂ : ℚ) (h1 : 0 < ForgettingCurve.days_elapsed m n₁)
    (h12 : ForgettingCurve.days_elapsed m n₁ ≤ ForgettingCurve.days_elapsed m n₂) :
    ForgettingCurve.calculate_retention cfg m n₂ ≤
      ForgettingCurve.calculate_retention cfg m n₁ := by
  have h2 : 0 < ForgettingCurve.days_elapsed m n₂ := lt_of_lt_of_le h1 h12
  unfold ForgettingCurve.calculate_retention
  rw [if_neg (not_le.mpr h1), if_neg (not_le.mpr h2)]
  apply max_le_max (le_refl _)
  apply Real.exp_le_exp.mpr
  have hs10 : (0:ℝ) < ForgettingCurve.calculate_stability cfg m * 10 := by linarith
  apply (div_le_div_right hs10).mpr
  have : ((ForgettingCurve.days_elapsed m n₁ : ℚ) : ℝ) ≤
      ((ForgettingCurve.days_elapsed m n₂ : ℚ) : ℝ) := by exact_mod_cast h12
  linarith

lemma retention_strict_antitone_above_floor (cfg : ForgettingConfig) (m : MemoryNode)
    (hs : 0 < ForgettingCurve.calculate_stability cfg m)
    (n₁ n₂ : ℚ) (h1 : 0 < ForgettingCurve.days_elapsed m n₁)
    (h12 : ForgettingCurve.days_elapsed m n₁ < ForgettingCurve.days_elapsed m n₂)
    (habove : (cfg.min_strength : ℝ) <
      ForgettingCurve.calculate_retention cfg m n₂) :
    ForgettingCurve.calculate_retention cfg m n₂ <
      ForgettingCurve.calculate_retention cfg m n₁ := by
  have h2 : 0 < ForgettingCurve.days_elapsed m n₂ := lt_trans h1 h12
  unfold ForgettingCurve.calculate_retention at habove ⊢
  rw [if_neg (not_le.mpr h1), if_neg (not_le.mpr h2)]
  rw [if_neg (not_le.mpr h2)] at habove
  have hs10 : (0:ℝ) < ForgettingCurve.calculate_stability cfg m * 10 := by linarith
  set e₂ := Real.exp (-((ForgettingCurve.days_elapsed m n₂ : ℚ) : ℝ) /
    (ForgettingCurve.calculate_stability cfg m * 10)) with he₂
  set e₁ := Real.exp (-((ForgettingCurve.days_elapsed m n₁ : ℚ) : ℝ) /
    (ForgettingCurve.calculate_stability cfg m * 10)) with he₁
  have hmine : (cfg.min_strength : ℝ) < e₂ := by
    rcases lt_max_iff.mp habove with h | h
    · exact absurd h (lt_irrefl _)
    · exact h
  have he12 : e₂ < e₁ := by
    rw [he₁, he₂]
    apply Real.exp_lt_exp.mpr
    apply (div_lt_div_right hs10).mpr
    have : ((ForgettingCurve.days_elapsed m n₁ : ℚ) : ℝ) <
        ((ForgettingCurve.days_elapsed m n₂ : ℚ) : ℝ) := by exact_mod_cast h12
    linarith
  rw [max_eq_right hmine.le]
  exact lt_of_lt_of_le he12 (le_max_right _ _)

/-! #### Concrete node used to exercise the forgetting curve -/

/-- A never-mentioned event node created at epoch second 0 with zero
base importance and no emotion tags (all other fields are the dataclass
defaults). -/
def retentionCexNode : MemoryNode :=
  { MemoryNode.mkDefault "m" ⟨2024, 1, 1⟩ 0 with base_importance := 0 }

lemma retentionCexNode_stability :
    ForgettingCurve.calculate_stability defaultForgettingConfig retentionCexNode = 1 := by
  unfold ForgettingCurve.calculate_stability retentionCexNode MemoryNode.mkDefault
    defaultForgettingConfig
  norm_num [Real.log_one]

lemma retentionCexNode_days (now : ℚ) :
    ForgettingCurve.days_elapsed retentionCexNode now = now / 86400 := by
  unfold ForgettingCurve.days_elapsed ForgettingCurve.lastReinforced retentionCexNode
    MemoryNode.mkDefault
  norm_num

lemma exp_three_gt_ten : (10:ℝ) < Real.exp 3 := by
  have h1 : (2.7 : ℝ) < Real.exp 1 := lt_trans (by norm_num) Real.exp_one_gt_d9
  have h3 : Real.exp 3 = Real.exp 1 ^ 3 := by
    rw [show (3:ℝ) = ((3:ℕ) : ℝ) * 1 by norm_num, Real.exp_nat_mul]
  have hpow : (2.7:ℝ) ^ 3 < Real.exp 1 ^ 3 :=
    pow_lt_pow_left h1 (by norm_num) (by norm_num)
  have : (10:ℝ) < (2.7:ℝ) ^ 3 := by norm_num
  rw [h3]
  linarith

lemma exp_neg_le_tenth (x : ℝ) (hx : 3 ≤ x) : Real.exp (-x) ≤ 1/10 := by
  rw [Real.exp_neg]
  have hten : (10:ℝ) ≤ Real.exp x :=
    le_trans exp_three_gt_ten.le (Real.exp_le_exp.mpr hx)
  have hpos : (0:ℝ) < Real.exp x := Real.exp_pos x
  rw [show (1:ℝ)/10 = (10:ℝ)⁻¹ by norm_num]
  exact inv_le_inv_of_le (by norm_num) hten

/-- For a node whose stability is 1 and whose decay baseline is epoch
second 0, the retention hits the `min_strength` floor once 30 days have
elapsed. -/
lemma retention_floor_of_simple (m : MemoryNode) (now : ℚ)
    (hstab : ForgettingCurve.calculate_stability defaultForgettingConfig m = 1)
    (hd : ForgettingCurve.days_elapsed m now = now / 86400)
    (h : 2592000 ≤ now) :
    ForgettingCurve.calculate_retention defaultForgettingConfig m now = 1/10 := by
  have hdpos : 0 < ForgettingCurve.days_elapsed m now := by
    rw [hd]
    have hn : (0:ℚ) < now := lt_of_lt_of_le (by norm_num) h
    positivity
  unfold ForgettingCurve.calculate_retention
  rw [if_neg (not_le.mpr hdpos), hstab]
  have harg : -((ForgettingCurve.days_elapsed m now : ℚ) : ℝ) / (1 * 10)
      = -(((now : ℚ) : ℝ) / 864000) := by
    rw [hd]
    push_cast
    ring
  rw [harg]
  have h3le : (3:ℝ) ≤ ((now : ℚ) : ℝ) / 864000 := by
    have : (2592000 : ℝ) ≤ ((now : ℚ) : ℝ) := by exact_mod_cast h
    linarith
  have hexp : Real.exp (-(((now : ℚ) : ℝ) / 864000)) ≤ 1/10 :=
    exp_neg_le_tenth _ h3le
  have hcast : ((defaultForgettingConfig.min_strength : ℚ) : ℝ) = 1/10 := by
    norm_num [defaultForgettingConfig]
  rw [hcast]
  exact max_eq_left hexp

lemma retentionCexNode_retention_floor (now : ℚ) (h : 2592000 ≤ now) :
    ForgettingCurve.calculate_retention defaultForgettingConfig retentionCexNode now
      = 1/10 :=
  retention_floor_of_simple retentionCexNode now retentionCexNode_stability
    (retentionCexNode_days now) h

/-- Counterexample to claim C2 as stated: for a fixed node, elapsed time
grows strictly from 30 to 40 days, yet the retention is unchanged (the
exponential has fallen below the `min_strength` floor of 0.1), so
`retention` is not strictly decreasing in elapsed days. -/
theorem retention_not_strictly_decreasing :
    0 < ForgettingCurve.days_elapsed retentionCexNode 2592000 ∧
    ForgettingCurve.days_elapsed retentionCexNode 2592000 <
      ForgettingCurve.days_elapsed retentionCexNode 3456000 ∧
    ForgettingCurve.calculate_retention defaultForgettingConfig retentionCexNode 2592000 =
      ForgettingCurve.calculate_retention defaultForgettingConfig retentionCexNode 3456000 := by
  refine ⟨?_, ?_, ?_⟩
  · rw [retentionCexNode_days]
    norm_num
  · rw [retentionCexNode_days, retentionCexNode_days]
    norm_num
  · rw [retentionCexNode_retention_floor 2592000 (by norm_num),
      retentionCexNode_retention_floor 3456000 (by norm_num)]

/-- Claim C2, amended: for a node with nonnegative base importance (and
the default configuration), retention is 1 exactly when no time has
elapsed, is non-increasing in elapsed days, is strictly decreasing as
long as the retention value stays strictly above the `min_strength`
floor (0.1), and never falls below that floor. -/
theorem retention_amended_monotonicity (m : MemoryNode)
    (him : 0 ≤ m.base_importance) :
    (∀ now : ℚ, ForgettingCurve.days_elapsed m now ≤ 0 →
      ForgettingCurve.calculate_retention defaultForgettingConfig m now = 1) ∧
    (∀ n₁ n₂ : ℚ, 0 < ForgettingCurve.days_elapsed m n₁ →
      ForgettingCurve.days_elapsed m n₁ ≤ ForgettingCurve.days_elapsed m n₂ →
      ForgettingCurve.calculate_retention defaultForgettingConfig m n₂ ≤
        ForgettingCurve.calculate_retention defaultForgettingConfig m n₁) ∧
    (∀ n₁ n₂ : ℚ, 0 < ForgettingCurve.days_elapsed m n₁ →
      ForgettingCurve.days_elapsed m n₁ < ForgettingCurve.days_elapsed m n₂ →
      (defaultForgettingConfig.min_strength : ℝ) <
        ForgettingCurve.calculate_retention defaultForgettingConfig m n₂ →
      ForgettingCurve.calculate_retention defaultForgettingConfig m n₂ <
        ForgettingCurve.calculate_retention defaultForgettingConfig m n₁) ∧
    (∀ now : ℚ, (defaultForgettingConfig.min_strength : ℝ) ≤
      ForgettingCurve.calculate_retention defaultForgettingConfig m now) := by
  have hs : 0 < ForgettingCurve.calculate_stability defaultForgettingConfig m :=
    stability_pos _ m him (by norm_num [defaultForgettingConfig])
      (by norm_num [defaultForgettingConfig])
  refine ⟨?_, ?_, ?_, ?_⟩
  · intro now h
    exact retention_eq_one_of_nonpos _ m now h
  · intro n₁ n₂ h1 h12
    exact retention_antitone _ m hs n₁ n₂ h1 h12
  · intro n₁ n₂ h1 h12 habove
    exact retention_strict_antitone_above_floor _ m hs n₁ n₂ h1 h12 habove
  · intro now
    exact retention_ge_min _ m now (by norm_num [defaultForgettingConfig])

/-- Witness for the amended C2 theorem at a concrete node and time. -/
theorem retention_amended_monotonicity_witness :
    (defaultForgettingConfig.min_strength : ℝ) ≤
      ForgettingCurve.calculate_retention defaultForgettingConfig retentionCexNode 86400 :=
  (retention_amended_monotonicity retentionCexNode
    (by norm_num [retentionCexNode, MemoryNode.mkDefault])).2.2.2 86400

/-- `_adjust_importance_by_review_timing` only ever rewrites
`base_importance`; every other field is untouched. -/
lemma adjust_importance_shape (cfg : ForgettingConfig) (m : MemoryNode) :
    ∃ b, ForgettingCurve.adjust_importance_by_review_timing cfg m =
      { m with base_importance := b } := by
  unfold ForgettingCurve.adjust_importance_by_review_timing
  by_cases h1 : m.mention_history.length < 2
  · rw [if_pos h1]
    exact ⟨m.base_importance, rfl⟩
  · rw [if_neg h1]
    dsimp only
    split
    · exact ⟨m.base_importance, rfl⟩
    · split
      · exact ⟨min 1 (m.base_importance + 1/20), rfl⟩
      · exact ⟨m.base_importance, rfl⟩

/-- The fields of a node that `_adjust_importance_by_review_timing`
leaves unchanged. -/
lemma adjust_importance_preserves (cfg : ForgettingConfig) (m : MemoryNode) :
    (ForgettingCurve.adjust_importance_by_review_timing cfg m).mention_count
        = m.mention_count ∧
    (ForgettingCurve.adjust_importance_by_review_timing cfg m).mention_history
        = m.mention_history ∧
    (ForgettingCurve.adjust_importance_by_review_timing cfg m).last_mentioned
        = m.last_mentioned ∧
    (ForgettingCurve.adjust_importance_by_review_timing cfg m).current_strength
        = m.current_strength := by
  obtain ⟨b, hb⟩ := adjust_importance_shape cfg m
  rw [hb]
  exact ⟨rfl, rfl, rfl, rfl⟩

/-- `reinforce_memory` unfolded to the adjusted record (definitional). -/
lemma reinforce_memory_eq (cfg : ForgettingConfig) (m : MemoryNode) (now : ℚ) :
    ForgettingCurve.reinforce_memory cfg m now =
      ForgettingCurve.adjust_importance_by_review_timing cfg
        { m with
          current_strength :=
            min 1 (ForgettingCurve.calculate_retention cfg m now + (cfg.mention_boost : ℝ)),
          mention_count := m.mention_count + 1,
          last_mentioned := some now,
          mention_history := m.mention_history ++ [now],
          updated_at := now } := rfl

/-- Claim C3: after `reinforce_memory`, the mention count has grown by
exactly one, `now` was appended to the mention history, `last_mentioned`
is `now`, the stored strength equals
`min(1, retention(node, now) + 0.4)` (retention taken on the
pre-reinforcement state), and that stored strength is at least the
pre-reinforcement retention. -/
theorem reinforce_spec (m : MemoryNode) (now : ℚ)
    (him : 0 ≤ m.base_importance) :
    (ForgettingCurve.reinforce_memory defaultForgettingConfig m now).mention_count
        = m.mention_count + 1 ∧
    (ForgettingCurve.reinforce_memory defaultForgettingConfig m now).mention_history
        = m.mention_history ++ [now] ∧
    (ForgettingCurve.reinforce_memory defaultForgettingConfig m now).last_mentioned
        = some now ∧
    (ForgettingCurve.reinforce_memory defaultForgettingConfig m now).current_strength
        = min 1 (ForgettingCurve.calculate_retention defaultForgettingConfig m now
            + (defaultForgettingConfig.mention_boost : ℝ)) ∧
    ForgettingCurve.calculate_retention defaultForgettingConfig m now ≤
      (ForgettingCurve.reinforce_memory defaultForgettingConfig m now).current_strength := by
  have hs : 0 < ForgettingCurve.calculate_stability defaultForgettingConfig m :=
    stability_pos _ m him (by norm_num [defaultForgettingConfig])
      (by norm_num [defaultForgettingConfig])
  have hone : ForgettingCurve.calculate_retention defaultForgettingConfig m now ≤ 1 :=
    retention_le_one _ m now (by norm_num [defaultForgettingConfig]) hs
  obtain ⟨hc, hh, hl, hstr⟩ := adjust_importance_preserves defaultForgettingConfig
    { m with
      current_strength :=
        min 1 (ForgettingCurve.calculate_retention defaultForgettingConfig m now
          + (defaultForgettingConfig.mention_boost : ℝ)),
      mention_count := m.mention_count + 1,
      last_mentioned := some now,
      mention_history := m.mention_history ++ [now],
      updated_at := now }
  rw [reinforce_memory_eq, hc, hh, hl, hstr]
  refine ⟨rfl, rfl, rfl, rfl, ?_⟩
  apply le_min hone
  have hboost : (0:ℝ) ≤ (defaultForgettingConfig.mention_boost : ℝ) := by
    norm_num [defaultForgettingConfig]
  linarith

/-- Witness for C3 at a concrete node and time. -/
theorem reinforce_spec_witness :
    (ForgettingCurve.reinforce_memory defaultForgettingConfig
        (MemoryNode.mkDefault "w" ⟨2024, 1, 1⟩ 0) 86400).mention_count
      = (MemoryNode.mkDefault "w" ⟨2024, 1, 1⟩ 0).mention_count + 1 ∧
    (ForgettingCurve.reinforce_memory defaultForgettingConfig
        (MemoryNode.mkDefault "w" ⟨2024, 1, 1⟩ 0) 86400).mention_history
      = (MemoryNode.mkDefault "w" ⟨2024, 1, 1⟩ 0).mention_history ++ [86400] ∧
    (ForgettingCurve.reinforce_memory defaultForgettingConfig
        (MemoryNode.mkDefault "w" ⟨2024, 1, 1⟩ 0) 86400).last_mentioned
      = some 86400 ∧
    (ForgettingCurve.reinforce_memory defaultForgettingConfig
        (MemoryNode.mkDefault "w" ⟨2024, 1, 1⟩ 0) 86400).current_strength
      = min 1 (ForgettingCurve.calculate_retention defaultForgettingConfig
          (MemoryNode.mkDefault "w" ⟨2024, 1, 1⟩ 0) 86400
          + (defaultForgettingConfig.mention_boost : ℝ)) ∧
    ForgettingCurve.calculate_retention defaultForgettingConfig
        (MemoryNode.mkDefault "w" ⟨2024, 1, 1⟩ 0) 86400 ≤
      (ForgettingCurve.reinforce_memory defaultForgettingConfig
        (MemoryNode.mkDefault "w" ⟨2024, 1, 1⟩ 0) 86400).current_strength :=
  reinforce_spec (MemoryNode.mkDefault "w" ⟨2024, 1, 1⟩ 0) 86400
    (by norm_num [MemoryNode.mkDefault])

/-! ### Consolidation (`memory_plugins/tree_graph/core/consolidation.py`) -/

/-- `ConsolidationConfig` from `consolidation.py`. -/
structure ConsolidationConfig where
  consolidation_interval_hours : ℕ
  short_term_retention_hours : ℕ
  min_importance_to_keep : ℚ
  daily_summary_max_length : ℕ
  enable_entity_extraction : Bool
  enable_relationship_inference : Bool

/-- The default `ConsolidationConfig`. -/
def defaultConsolidationConfig : ConsolidationConfig :=
  { consolidation_interval_hours := 24
    short_term_retention_hours := 48
    min_importance_to_keep := 1/5
    daily_summary_max_length := 500
    enable_entity_extraction := true
    enable_relationship_inference := true }

/-- Python truthiness of the `Optional[str]` field `raw_conversation`:
truthy exactly when present and non-empty. -/
def rawTruthy : Option String → Bool
  | some s => decide (s ≠ "")
  | none => false

open scoped Classical

/-- One iteration of the loop body of
`MemoryConsolidator._clean_low_importance_details`: consolidated nodes
are skipped; otherwise, when the effective importance is below
`min_importance_to_keep` and the freshly computed retention is below
0.3, a truthy `raw_conversation` (a present, non-empty string) is
cleared to `None`.  The loop iterations are independent, so the pass is
the map of this function. -/
noncomputable def cleanNode (cfg : ConsolidationConfig) (fcfg : ForgettingConfig)
    (now : ℚ) (m : MemoryNode) : MemoryNode :=
  if m.is_consolidated then m
  else if MemoryNode.calculate_effective_importance m < (cfg.min_importance_to_keep : ℝ)
      ∧ ForgettingCurve.calculate_retention fcfg m now < 3/10 then
    if rawTruthy m.raw_conversation then { m with raw_conversation := none } else m
  else m

/-- `MemoryConsolidator._clean_low_importance_details`: the updated node
list together with the number of nodes whose detail text was cleared. -/
noncomputable def clean_low_importance_details (cfg : ConsolidationConfig)
    (fcfg : ForgettingConfig) (memories : List MemoryNode) (now : ℚ) :
    List MemoryNode × ℕ :=
  (memories.map (cleanNode cfg fcfg now),
   memories.countP (fun m => decide (¬ m.is_consolidated
     ∧ MemoryNode.calculate_effective_importance m < (cfg.min_importance_to_keep : ℝ)
     ∧ ForgettingCurve.calculate_retention fcfg m now < 3/10
     ∧ rawTruthy m.raw_conversation = true)))

/-- Claim C9: at the detail-pruning step of consolidation (default
configuration), every still-non-consolidated event whose effective
importance is below `min_importance_to_keep = 0.2` and whose strength is
below 0.3 ends with no detail text (its `raw_conversation` is `None`,
or was already the empty string), while its content summary is kept;
every node not meeting the two score conditions, and every already
consolidated node, is left entirely unchanged; and the pass is exactly
the map of this per-node step over the input list. -/
theorem detail_pruning_spec (now : ℚ) :
    (∀ m : MemoryNode, m.is_consolidated = false →
      MemoryNode.calculate_effective_importance m <
        (defaultConsolidationConfig.min_importance_to_keep : ℝ) →
      ForgettingCurve.calculate_retention defaultForgettingConfig m now < 3/10 →
      ((cleanNode defaultConsolidationConfig defaultForgettingConfig now m).raw_conversation
          = none ∨
        (cleanNode defaultConsolidationConfig defaultForgettingConfig now m).raw_conversation
          = some "") ∧
      (cleanNode defaultConsolidationConfig defaultForgettingConfig now m).content
        = m.content) ∧
    (∀ m : MemoryNode, m.is_consolidated = true ∨
      ¬(MemoryNode.calculate_effective_importance m <
          (defaultConsolidationConfig.min_importance_to_keep : ℝ)
        ∧ ForgettingCurve.calculate_retention defaultForgettingConfig m now < 3/10) →
      cleanNode defaultConsolidationConfig defaultForgettingConfig now m = m) ∧
    (∀ memories : List MemoryNode,
      (clean_low_importance_details defaultConsolidationConfig defaultForgettingConfig
        memories now).1
      = memories.map (cleanNode defaultConsolidationConfig defaultForgettingConfig now)) := by
  refine ⟨?_, ?_, fun _ => rfl⟩
  · intro m hcons himp hstr
    unfold cleanNode
    rw [hcons, if_neg (by simp), if_pos ⟨himp, hstr⟩]
    rcases hraw : m.raw_conversation with _ | s
    · rw [if_neg (by simp [rawTruthy])]
      exact ⟨Or.inl hraw, rfl⟩
    · by_cases hs : s = ""
      · subst hs
        rw [if_neg (by simp [rawTruthy])]
        exact ⟨Or.inr hraw, rfl⟩
      · rw [if_pos (by simp [rawTruthy, hs])]
        exact ⟨Or.inl rfl, rfl⟩
  · intro m h
    unfold cleanNode
    rcases h with h | h
    · rw [if_pos h]
    · by_cases hcons : m.is_consolidated
      · rw [if_pos hcons]
      · rw [if_neg hcons, if_neg h]

/-- A non-consolidated, never-mentioned, zero-importance node carrying a
raw conversation snippet. -/
def cleanCexNode : MemoryNode :=
  { retentionCexNode with raw_conversation := some "原始对话片段" }

lemma cleanCexNode_stability :
    ForgettingCurve.calculate_stability defaultForgettingConfig cleanCexNode = 1 := by
  unfold ForgettingCurve.calculate_stability cleanCexNode retentionCexNode
    MemoryNode.mkDefault defaultForgettingConfig
  norm_num [Real.log_one]

lemma cleanCexNode_days (now : ℚ) :
    ForgettingCurve.days_elapsed cleanCexNode now = now / 86400 := by
  unfold ForgettingCurve.days_elapsed ForgettingCurve.lastReinforced cleanCexNode
    retentionCexNode MemoryNode.mkDefault
  norm_num

lemma cleanCexNode_eff :
    MemoryNode.calculate_effective_importance cleanCexNode = 0 := by
  unfold MemoryNode.calculate_effective_importance cleanCexNode retentionCexNode
    MemoryNode.mkDefault
  norm_num

/-- Witness for C9 at a concrete node (30 days old, zero importance,
raw conversation present) and time. -/
theorem detail_pruning_spec_witness :
    ((cleanNode defaultConsolidationConfig defaultForgettingConfig 2592000
        cleanCexNode).raw_conversation = none ∨
      (cleanNode defaultConsolidationConfig defaultForgettingConfig 2592000
        cleanCexNode).raw_conversation = some "") ∧
    (cleanNode defaultConsolidationConfig defaultForgettingConfig 2592000
      cleanCexNode).content = cleanCexNode.content :=
  (detail_pruning_spec 2592000).1 cleanCexNode rfl
    (by
      rw [cleanCexNode_eff]
      norm_num [defaultConsolidationConfig])
    (by
      rw [retention_floor_of_simple cleanCexNode 2592000 cleanCexNode_stability
        (cleanCexNode_days 2592000) (by norm_num)]
      norm_num)

/-! ### Conversation history and compression (`backend/agent/core.py`) -/

/-- One `{role, content}` chat message. -/
structure Msg where
  role : String
  content : String
deriving DecidableEq

/-- Module constants of `backend/agent/core.py`. -/
def HISTORY_TOKEN_BUDGET : ℕ := 1200

def COMPRESSION_CONTEXT_RETENTION_TURNS : ℕ := 2

def MAX_HISTORY_TURNS : ℕ := 10

/-- The per-session mutable state of `AgentCore` (the three defaultdicts
`conversation_history`, `compressed_history` and `compression_state`),
modelled as total maps with the default values baked in. -/
structure AgentState where
  conversation_history : String → List Msg
  compressed_history : String → String
  compressing : String → Bool
  last_compressed_at : String → ℕ

/-- The token-budgeted sliding-window walk of
`AgentCore._get_conversation_history`: the input is the reversed
history (newest first); a message is kept while the running token total
stays within `HISTORY_TOKEN_BUDGET`, and the walk stops at the first
overflowing message.  Kept messages are re-emitted oldest first. -/
def selectRecent : List Msg → ℕ → List Msg
  | [], _ => []
  | msg :: rest, total =>
    let t := approx_tokens msg.content
    if HISTORY_TOKEN_BUDGET < total + t then []
    else selectRecent rest (total + t) ++ [msg]

/-- `AgentCore._get_conversation_history`. -/
def get_conversation_history (st : AgentState) (session : String) : List Msg :=
  selectRecent (st.conversation_history session).reverse 0

/-- Formatting of a message list as `用户: ...` / `助手: ...` lines. -/
def formatHistory (msgs : List Msg) : String :=
  String.intercalate "\n" (msgs.map (fun msg =>
    (if msg.role = "user" then "用户" else "助手") ++ ": " ++ msg.content))

/-- `AgentCore._get_sliding_window_history_text`. -/
def get_sliding_window_history_text (st : AgentState) (session : String) : String :=
  let history := get_conversation_history st session
  if history = [] then "" else formatHistory history

/-- `current_msgs[:-retention_count]` (empty unless the history is
longer than the hot tail). -/
def msgsToCompress (msgs : List Msg) : List Msg :=
  if COMPRESSION_CONTEXT_RETENTION_TURNS * 2 < msgs.length then
    msgs.take (msgs.length - COMPRESSION_CONTEXT_RETENTION_TURNS * 2)
  else []

/-- `current_msgs[-retention_count:]` (the whole history when it is not
longer than the hot tail). -/
def msgsToRetain (msgs : List Msg) : List Msg :=
  if COMPRESSION_CONTEXT_RETENTION_TURNS * 2 < msgs.length then
    msgs.drop (msgs.length - COMPRESSION_CONTEXT_RETENTION_TURNS * 2)
  else msgs

/-- The `full_history` string whose estimated tokens are compared with
the compression threshold. -/
def fullHistoryText (compressed compress_text : String) : String :=
  if compressed ≠ "" ∧ compress_text ≠ "" then
    "[之前的对话摘要]\n" ++ compressed ++ "\n\n[早期对话]\n" ++ compress_text
  else if compressed ≠ "" then "[之前的对话摘要]\n" ++ compressed
  else compress_text

/-- `AgentCore._get_compressed_history_text`, as a function of the
outcome of the (single) compression LLM call for this invocation:
`Except.error` is the Python exception path, `Except.ok raw` a reply
whose stripped text is the candidate summary.  Returns the history text
together with the post-call agent state (the `finally` clause always
restores the `compressing` flag, so a state change survives only on
successful compression). -/
def get_compressed_history_text (st : AgentState) (session : String)
    (threshold target : ℕ) (wallclock : ℕ)
    (callResult : Except Unit String) : String × AgentState :=
  let compressed := st.compressed_history session
  let current_msgs := st.conversation_history session
  if current_msgs = [] ∧ compressed = "" then ("", st)
  else
    let msgs_to_retain := msgsToRetain current_msgs
    let compress_text := formatHistory (msgsToCompress current_msgs)
    let retain_text := formatHistory msgs_to_retain
    let full_history := fullHistoryText compressed compress_text
    if approx_tokens full_history ≤ threshold then
      (String.intercalate "\n\n"
        ((if compressed ≠ "" then ["[之前的对话摘要]\n" ++ compressed] else [])
          ++ (if retain_text ≠ "" then ["[最近的对话]\n" ++ retain_text] else [])), st)
    else if st.compressing session then
      (get_sliding_window_history_text st session, st)
    else
      match callResult with
      | Except.error _ => (get_sliding_window_history_text st session, st)
      | Except.ok raw =>
        let compressed_result := raw.trim
        if compressed_result = "" then
          (get_sliding_window_history_text st session, st)
        else
          (String.intercalate "\n\n"
            (["[对话摘要]\n" ++ compressed_result]
              ++ (if retain_text ≠ "" then ["[最近的对话]\n" ++ retain_text] else [])),
           { st with
             compressed_history := fun s =>
               if s = session then compressed_result else st.compressed_history s,
             conversation_history := fun s =>
               if s = session then msgs_to_retain else st.conversation_history s,
             last_compressed_at := fun s =>
               if s = session then wallclock else st.last_compressed_at s })

/-- Claim C5: when the compression threshold is exceeded (so the
compression path is taken), both failure modes — a compression already
in flight for the session, and the LLM call raising — return exactly
the sliding-window history text for the session at that instant and
leave the whole agent state (stored `compressed_history`,
`conversation_history`, flags) unchanged. -/
theorem compression_fallback_spec (st : AgentState) (session : String)
    (threshold target wallclock : ℕ)
    (hover : threshold < approx_tokens (fullHistoryText (st.compressed_history session)
      (formatHistory (msgsToCompress (st.conversation_history session))))) :
    (st.compressing session = true →
      ∀ callResult : Except Unit String,
        get_compressed_history_text st session threshold target wallclock callResult
          = (get_sliding_window_history_text st session, st)) ∧
    (∀ e : Unit,
      get_compressed_history_text st session threshold target wallclock (Except.error e)
        = (get_sliding_window_history_text st session, st)) := by
  have hguard : ¬(st.conversation_history session = [] ∧
      st.compressed_history session = "") := by
    rintro ⟨h1, h2⟩
    rw [h1, h2] at hover
    have hz : approx_tokens (fullHistoryText ""
        (formatHistory (msgsToCompress ([] : List Msg)))) = 0 := rfl
    rw [hz] at hover
    omega
  constructor
  · intro hflag callResult
    simp only [get_compressed_history_text]
    rw [if_neg hguard, if_neg (not_le.mpr hover), hflag]
    simp
  · intro e
    by_cases hflag : st.compressing session = true
    · simp only [get_compressed_history_text]
      rw [if_neg hguard, if_neg (not_le.mpr hover), hflag]
      simp
    · have hflag' : st.compressing session = false := by
        exact Bool.not_eq_true _ ▸ Bool.eq_false_iff.mpr hflag
      simp only [get_compressed_history_text]
      rw [if_neg hguard, if_neg (not_le.mpr hover), hflag']
      simp

/-- A concrete session state: one stored message, a non-empty stored
summary, no compression in flight. -/
def c5State : AgentState :=
  { conversation_history := fun s =>
      if s = "sess" then [{ role := "user", content := "hello hello" }] else []
    compressed_history := fun s => if s = "sess" then "先前摘要" else ""
    compressing := fun _ => false
    last_compressed_at := fun _ => 0 }

/-- Witness for C5: with threshold 0 the compression path is taken, the
call raises, and the result is the sliding-window text with the state
unchanged. -/
theorem compression_fallback_spec_witness :
    get_compressed_history_text c5State "sess" 0 200 0 (Except.error ())
      = (get_sliding_window_history_text c5State "sess", c5State) :=
  (compression_fallback_spec c5State "sess" 0 200 0 (by decide)).2 ()

/-! ### Knowledge graph (`memory_framework/memory_framework/schema/`) -/

/-- `EntityType` from `schema/models.py`. -/
inductive EntityType where
  | user
  | person
  | place
  | organization
  | event
  | concept
  | object
deriving DecidableEq

/-- `RelationType` from `schema/models.py`. -/
inductive RelationType where
  | family
  | friend
  | colleague
  | romantic
  | works_at
  | studies_at
  | belongs_to
  | participated_in
  | caused
  | related_to
  | likes
  | dislikes
  | fears
  | wants
deriving DecidableEq

/-- `Entity` from `schema/models.py` (the open `attributes` /
`sentiment_notes` bags and the wall-clock `created_at` / `updated_at`
stamps are opaque to every embedded operation and are omitted). -/
structure Entity where
  id : String
  name : String
  aliases : List String
  entity_type : EntityType
  sentiment : ℚ
  importance : ℚ
  mention_count : ℕ
  first_memory_id : Option String
  recent_memory_ids : List String
deriving DecidableEq

/-- The dataclass defaults of `Entity` (id supplied by the caller in
place of `uuid4`). -/
def Entity.mkDefault (id name : String) (entity_type : EntityType) : Entity :=
  { id := id
    name := name
    aliases := []
    entity_type := entity_type
    sentiment := 0
    importance := 1/2
    mention_count := 0
    first_memory_id := none
    recent_memory_ids := [] }

/-- `Relationship` from `schema/models.py` (open `attributes` bag and
timestamps omitted as above). -/
structure Relationship where
  id : String
  source_id : String
  target_id : String
  relation_type : RelationType
  description : String
  sentiment : ℚ
  is_bidirectional : Bool
  evidence_memory_ids : List String
  confidence : ℚ
deriving DecidableEq

/-- Python dict read `d.get(k)`: first stored entry for the key. -/
def dictGet {κ β : Type} [BEq κ] (l : List (κ × β)) (k : κ) : Option β :=
  (l.find? (fun kv => kv.1 == k)).map (fun kv => kv.2)

/-- Python dict read with default, `d.get(k, dflt)` (also the read half
of a `defaultdict`). -/
def dictGetD {κ β : Type} [BEq κ] (l : List (κ × β)) (k : κ) (dflt : β) : β :=
  (dictGet l k).getD dflt

/-- Python dict write `d[k] = v`: replace in place, else append. -/
def dictSet {κ β : Type} [BEq κ] (l : List (κ × β)) (k : κ) (v : β) : List (κ × β) :=
  if (l.find? (fun kv => kv.1 == k)).isSome then
    l.map (fun kv => if kv.1 == k then (k, v) else kv)
  else l ++ [(k, v)]

/-- Python `str.lower()`: the character-wise lowercasing map (embedded
explicitly so that it reduces; `Char.toLower` handles the ASCII names
exercised here exactly as Python does). -/
def pyLower (s : String) : String := String.mk (s.data.map Char.toLower)

/-- The list truthiness idiom `[x] if x else []` for an optional
string (`None` and the empty string are falsy). -/
def optStrTruthy : Option String → List String
  | some s => if s = "" then [] else [s]
  | none => []

/-- `KnowledgeGraph` state from `schema/knowledge_graph.py`
(`user_profile` is untouched by the embedded operations and omitted;
`next_id` drives the `uuid4` counter model). -/
structure KnowledgeGraph where
  user_id : String
  entities : List (String × Entity)
  relationships : List (String × Relationship)
  name_index : List (String × String)
  type_index : List (EntityType × List String)
  outgoing_edges : List (String × List String)
  incoming_edges : List (String × List String)
  next_id : ℕ

/-- `KnowledgeGraph.__init__`. -/
def emptyKnowledgeGraph (user_id : String) : KnowledgeGraph :=
  { user_id := user_id
    entities := []
    relationships := []
    name_index := []
    type_index := []
    outgoing_edges := []
    incoming_edges := []
    next_id := 0 }

/-- Fresh-id generation standing in for `uuid.uuid4()`. -/
def genId (n : ℕ) : String := "uuid-" ++ Nat.repr n

namespace KnowledgeGraph

/-- `KnowledgeGraph.add_entity`. -/
def add_entity (g : KnowledgeGraph) (e : Entity) : KnowledgeGraph :=
  let g1 := { g with entities := dictSet g.entities e.id e }
  let ni := e.aliases.foldl (fun ni a => dictSet ni (pyLower a) e.id)
    (dictSet g1.name_index (pyLower e.name) e.id)
  let g2 := { g1 with name_index := ni }
  let ti := dictSet g2.type_index e.entity_type
    ((dictGetD g2.type_index e.entity_type []) ++ [e.id])
  { g2 with type_index := ti }

/-- `KnowledgeGraph.find_entity_by_name` (case-insensitive via the name
index). -/
def find_entity_by_name (g : KnowledgeGraph) (name : String) : Option Entity :=
  match dictGet g.name_index (pyLower name) with
  | some eid => dictGet g.entities eid
  | none => none

/-- `KnowledgeGraph.get_or_create_entity`. -/
def get_or_create_entity (g : KnowledgeGraph) (name : String)
    (entity_type : EntityType) : Entity × KnowledgeGraph :=
  match find_entity_by_name g name with
  | some e => (e, g)
  | none =>
    let e := Entity.mkDefault (genId g.next_id) name entity_type
    (e, add_entity { g with next_id := g.next_id + 1 } e)

/-- `KnowledgeGraph.add_relationship` (bidirectional relationships are
indexed in both adjacency directions). -/
def add_relationship (g : KnowledgeGraph) (rel : Relationship) : KnowledgeGraph :=
  let g1 := { g with relationships := dictSet g.relationships rel.id rel }
  let og := dictSet g1.outgoing_edges rel.source_id
    ((dictGetD g1.outgoing_edges rel.source_id []) ++ [rel.id])
  let ic := dictSet g1.incoming_edges rel.target_id
    ((dictGetD g1.incoming_edges rel.target_id []) ++ [rel.id])
  let g2 := { g1 with outgoing_edges := og, incoming_edges := ic }
  if rel.is_bidirectional then
    let og2 := dictSet g2.outgoing_edges rel.target_id
      ((dictGetD g2.outgoing_edges rel.target_id []) ++ [rel.id])
    let ic2 := dictSet g2.incoming_edges rel.source_id
      ((dictGetD g2.incoming_edges rel.source_id []) ++ [rel.id])
    { g2 with outgoing_edges := og2, incoming_edges := ic2 }
  else g2

/-- `KnowledgeGraph.find_relationship`: scan the outgoing adjacency of
the source, return the first stored relationship that reaches the
target (directly, or backwards when bidirectional) and matches the
requested type when one is given.  (The adjacency lists only hold ids
of stored relationships; a dangling id is skipped here where the Python
lookup would raise.) -/
def find_relationship (g : KnowledgeGraph) (source_id target_id : String)
    (relation_type : Option RelationType) : Option Relationship :=
  (dictGetD g.outgoing_edges source_id []).findSome? (fun rid =>
    match dictGet g.relationships rid with
    | none => none
    | some rel =>
      if rel.target_id = target_id ∨ (rel.is_bidirectional ∧ rel.source_id = target_id) then
        if relation_type = none ∨ relation_type = some rel.relation_type then some rel
        else none
      else none)

/-- `KnowledgeGraph.create_relationship_between`: resolve (or create)
both entities; when a relationship of the exact type already exists
between them, append the evidence and bump the confidence by 0.1 capped
at 1.0 instead of duplicating; otherwise store a fresh bidirectional
relationship with confidence 1.0. -/
def create_relationship_between (g : KnowledgeGraph)
    (source_name target_name : String) (relation_type : RelationType)
    (description : String) (evidence_memory_id : Option String) :
    Relationship × KnowledgeGraph :=
  let sg := get_or_create_entity g source_name EntityType.person
  let tg := get_or_create_entity sg.2 target_name EntityType.person
  match find_relationship tg.2 sg.1.id tg.1.id (some relation_type) with
  | some existing =>
    let ev := existing.evidence_memory_ids ++ optStrTruthy evidence_memory_id
    let upd := { existing with
      evidence_memory_ids := ev,
      confidence := min 1 (existing.confidence + 1/10) }
    (upd, { tg.2 with relationships := dictSet tg.2.relationships upd.id upd })
  | none =>
    let rel : Relationship :=
      { id := genId tg.2.next_id
        source_id := sg.1.id
        target_id := tg.1.id
        relation_type := relation_type
        description := description
        sentiment := 0
        is_bidirectional := true
        evidence_memory_ids := optStrTruthy evidence_memory_id
        confidence := 1 }
    (rel, add_relationship { tg.2 with next_id := tg.2.next_id + 1 } rel)

end KnowledgeGraph

/-! #### Relationship dedup (C7) -/

/-- The explicit result of the first `create_relationship_between` call
on an empty graph (entities `uuid-0` and `uuid-1`, relationship
`uuid-2`). -/
def firstRel (A B d1 e1 : String) : Relationship :=
  { id := genId 2
    source_id := genId 0
    target_id := genId 1
    relation_type := RelationType.friend
    description := d1
    sentiment := 0
    is_bidirectional := true
    evidence_memory_ids := [e1]
    confidence := 1 }

/-- The explicit graph state after the first call. -/
def firstGraph (A B d1 e1 : String) : KnowledgeGraph :=
  { user_id := "u"
    entities := [(genId 0, Entity.mkDefault (genId 0) A EntityType.person),
                 (genId 1, Entity.mkDefault (genId 1) B EntityType.person)]
    relationships := [(genId 2, firstRel A B d1 e1)]
    name_index := [(pyLower A, genId 0), (pyLower B, genId 1)]
    type_index := [(EntityType.person, [genId 0, genId 1])]
    outgoing_edges := [(genId 0, [genId 2]), (genId 1, [genId 2])]
    incoming_edges := [(genId 1, [genId 2]), (genId 0, [genId 2])]
    next_id := 3 }

lemma first_call_eq (A B d1 e1 : String)
    (hAB : pyLower A ≠ pyLower B) (he1 : e1 ≠ "") :
    KnowledgeGraph.create_relationship_between (emptyKnowledgeGraph "u") A B
      RelationType.friend d1 (some e1) = (firstRel A B d1 e1, firstGraph A B d1 e1) := by
  have hab : (pyLower A == pyLower B) = false := beq_eq_false_iff_ne.mpr hAB
  have hba : (pyLower B == pyLower A) = false :=
    beq_eq_false_iff_ne.mpr (Ne.symm hAB)
  have h01 : genId 0 ≠ genId 1 := by decide
  have h10 : genId 1 ≠ genId 0 := by decide
  have h02 : genId 0 ≠ genId 2 := by decide
  have h20 : genId 2 ≠ genId 0 := by decide
  have h12 : genId 1 ≠ genId 2 := by decide
  have h21 : genId 2 ≠ genId 1 := by decide
  simp [KnowledgeGraph.create_relationship_between, KnowledgeGraph.get_or_create_entity,
    KnowledgeGraph.find_entity_by_name, KnowledgeGraph.add_entity,
    KnowledgeGraph.add_relationship, KnowledgeGraph.find_relationship,
    emptyKnowledgeGraph, dictGet, dictGetD, dictSet, Entity.mkDefault, optStrTruthy,
    firstRel, firstGraph, hab, hba, he1, h01, h10, h02, h20, h12, h21]

lemma second_call_eq (A B d1 d2 e1 e2 : String)
    (hAB : pyLower A ≠ pyLower B) (he2 : e2 ≠ "") :
    KnowledgeGraph.create_relationship_between (firstGraph A B d1 e1) A B
      RelationType.friend d2 (some e2) =
    ({ firstRel A B d1 e1 with evidence_memory_ids := [e1, e2], confidence := 1 },
     { firstGraph A B d1 e1 with relationships :=
        [(genId 2, { firstRel A B d1 e1 with
          evidence_memory_ids := [e1, e2], confidence := 1 })] }) := by
  have hab : (pyLower A == pyLower B) = false := beq_eq_false_iff_ne.mpr hAB
  have hba : (pyLower B == pyLower A) = false :=
    beq_eq_false_iff_ne.mpr (Ne.symm hAB)
  have hconf : min (1:ℚ) (1 + 1/10) = 1 := by norm_num [min_def]
  have h01 : genId 0 ≠ genId 1 := by decide
  have h10 : genId 1 ≠ genId 0 := by decide
  have h02 : genId 0 ≠ genId 2 := by decide
  have h20 : genId 2 ≠ genId 0 := by decide
  have h12 : genId 1 ≠ genId 2 := by decide
  have h21 : genId 2 ≠ genId 1 := by decide
  simp [KnowledgeGraph.create_relationship_between, KnowledgeGraph.get_or_create_entity,
    KnowledgeGraph.find_entity_by_name, KnowledgeGraph.add_entity,
    KnowledgeGraph.add_relationship, KnowledgeGraph.find_relationship,
    dictGet, dictGetD, dictSet, Entity.mkDefault, optStrTruthy,
    firstRel, firstGraph, hab, hba, he2, hconf, h01, h10, h02, h20, h12, h21]

/-- Claim C7: calling `create_relationship_between(A, B, FRIEND, ...)`
twice (with truthy evidence ids) on a fresh graph stores exactly one
relationship between the two resolved entities; the repeat call returns
that same relationship with both evidence ids recorded and the
confidence bumped by 0.1 but capped at 1.0 (the default confidence is
already 1.0, so the cap holds it at 1.0). -/
theorem relationship_dedup_spec (A B d1 d2 e1 e2 : String)
    (hAB : pyLower A ≠ pyLower B) (he1 : e1 ≠ "") (he2 : e2 ≠ "") :
    let p1 := KnowledgeGraph.create_relationship_between (emptyKnowledgeGraph "u") A B
      RelationType.friend d1 (some e1)
    let p2 := KnowledgeGraph.create_relationship_between p1.2 A B
      RelationType.friend d2 (some e2)
    p2.2.relationships = [(p2.1.id, p2.1)] ∧
    p2.1.id = p1.1.id ∧
    p2.1.source_id = p1.1.source_id ∧
    p2.1.target_id = p1.1.target_id ∧
    p2.1.relation_type = RelationType.friend ∧
    p2.1.evidence_memory_ids = [e1, e2] ∧
    p2.1.confidence = 1 := by
  intro p1 p2
  have h1 : p1 = (firstRel A B d1 e1, firstGraph A B d1 e1) :=
    first_call_eq A B d1 e1 hAB he1
  have h2 : p2 = ({ firstRel A B d1 e1 with
      evidence_memory_ids := [e1, e2], confidence := 1 },
    { firstGraph A B d1 e1 with relationships :=
        [(genId 2, { firstRel A B d1 e1 with
          evidence_memory_ids := [e1, e2], confidence := 1 })] }) := by
    show KnowledgeGraph.create_relationship_between p1.2 A B
      RelationType.friend d2 (some e2) = _
    rw [h1]
    exact second_call_eq A B d1 d2 e1 e2 hAB he2
  rw [h1, h2]
  refine ⟨?_, rfl, rfl, rfl, rfl, rfl, rfl⟩
  simp [firstRel, firstGraph]

/-- Witness for C7 with concrete names and evidence ids. -/
theorem relationship_dedup_spec_witness :
    let p1 := KnowledgeGraph.create_relationship_between (emptyKnowledgeGraph "u")
      "Alice" "Bob" RelationType.friend "d1" (some "m1")
    let p2 := KnowledgeGraph.create_relationship_between p1.2 "Alice" "Bob"
      RelationType.friend "d2" (some "m2")
    p2.2.relationships = [(p2.1.id, p2.1)] ∧
    p2.1.id = p1.1.id ∧
    p2.1.source_id = p1.1.source_id ∧
    p2.1.target_id = p1.1.target_id ∧
    p2.1.relation_type = RelationType.friend ∧
    p2.1.evidence_memory_ids = ["m1", "m2"] ∧
    p2.1.confidence = 1 :=
  relationship_dedup_spec "Alice" "Bob" "d1" "d2" "m1" "m2"
    (by decide) (by decide) (by decide)

/-! ### Relevance selector (`backend/memory_plugin_api.py`) -/

/-- The projection of a memory dict that `get_relevant_memories` reads:
`m.get('importance', ...)` and `m.get('content', '')`. -/
structure MemDict where
  importance : ℚ
  content : String
deriving DecidableEq

/-- An ASCII letter (the regex class `[a-zA-Z]`). -/
def isAsciiAlpha (c : Char) : Bool :=
  decide (('a' ≤ c ∧ c ≤ 'z') ∨ ('A' ≤ c ∧ c ≤ 'Z'))

/-- Maximal runs of ASCII letters (`re.findall(r'[a-zA-Z]+', ...)`),
with `acc` holding the current run reversed. -/
def alphaRunsGo : List Char → List Char → List String
  | [], acc => if acc = [] then [] else [String.mk acc.reverse]
  | c :: rest, acc =>
    if isAsciiAlpha c then alphaRunsGo rest (c :: acc)
    else (if acc = [] then [] else [String.mk acc.reverse]) ++ alphaRunsGo rest []

def alphaRuns (l : List Char) : List String := alphaRunsGo l []

/-- `MemoryPluginService._extract_keywords`: every CJK character of the
text, every pair of consecutive CJK characters (consecutive in the
filtered CJK subsequence, as `re.findall` produces it), and every
lowercased ASCII-letter word of length at least 2. -/
def extract_keywords (text : String) : Finset String :=
  if text = "" then ∅
  else
    let cc := text.data.filter isCJK
    let singles := cc.map (fun c => String.mk [c])
    let bigrams := (cc.zip cc.tail).map (fun p => String.mk [p.1, p.2])
    let words := (alphaRuns (pyLower text).data).filter (fun w => 1 < w.length)
    (singles ++ bigrams ++ words).toFinset

/-- `MemoryPluginService._calculate_similarity`: Jaccard similarity of
the two keyword sets, 0 when either is empty. -/
def calculate_similarity (k1 k2 : Finset String) : ℚ :=
  if k1 = ∅ ∨ k2 = ∅ then 0
  else if 0 < (k1 ∪ k2).card then ((k1 ∩ k2).card : ℚ) / ((k1 ∪ k2).card : ℚ)
  else 0

/-- A scored entry of the relevance ranking. -/
structure ScoredMem where
  memory : MemDict
  similarity : ℚ
  final_score : ℚ
deriving DecidableEq

/-- The score record built for a library memory. -/
def scoreMem (query_keywords : Finset String) (m : MemDict) : ScoredMem :=
  let sim := calculate_similarity query_keywords (extract_keywords m.content)
  { memory := m
    similarity := sim
    final_score := sim * (7/10) + m.importance * (3/10) }

/-- `MemoryPluginService.get_relevant_memories`.  The two external
reads are parameters: `searchFallback` is the list of memory dicts the
plugin search returns on the no-keyword fallback path, and
`all_memories` is what `get_recent_memories(limit=1000)` returns.
Memories with importance at least 0.8 (core memories) are excluded,
each remaining memory is scored `0.7 * Jaccard + 0.3 * importance`,
zero-similarity entries are dropped, and the rest is returned in
descending score order (Python sort is stable), truncated to `limit`. -/
def get_relevant_memories (searchFallback : List MemDict)
    (all_memories : List MemDict) (query : String) (limit : ℕ) : List MemDict :=
  if query = "" then []
  else
    let query_keywords := extract_keywords query
    if query_keywords = ∅ then
      (searchFallback.filter (fun m => decide (m.importance < 4/5))).take limit
    else
      let library := all_memories.filter (fun m => decide (m.importance < 4/5))
      if library = [] then []
      else
        let scored := library.map (scoreMem query_keywords)
        let sorted := scored.mergeSort (fun a b => decide (b.final_score ≤ a.final_score))
        ((sorted.filter (fun x => decide (0 < x.similarity))).map
          (fun x => x.memory)).take limit

/-- Claim C8: for a query with a non-empty extracted keyword set, the
returned list has at most `limit` entries; every returned memory comes
from the candidate pool, has importance strictly below 0.8 and strictly
positive Jaccard similarity to the query; and the list is ordered by
non-increasing final score `0.7 * similarity + 0.3 * importance`. -/
theorem relevance_selector_spec (searchFallback all_memories : List MemDict)
    (query : String) (limit : ℕ)
    (hq : extract_keywords query ≠ ∅) :
    (get_relevant_memories searchFallback all_memories query limit).length ≤ limit ∧
    (∀ m ∈ get_relevant_memories searchFallback all_memories query limit,
      m ∈ all_memories ∧ m.importance < 4/5 ∧
      0 < calculate_similarity (extract_keywords query) (extract_keywords m.content)) ∧
    (get_relevant_memories searchFallback all_memories query limit).Pairwise
      (fun a b =>
        calculate_similarity (extract_keywords query) (extract_keywords b.content) * (7/10)
            + b.importance * (3/10)
          ≤ calculate_similarity (extract_keywords query) (extract_keywords a.content) * (7/10)
            + a.importance * (3/10)) := by
  have hqne : query ≠ "" := by
    intro h
    exact hq (by rw [h]; rfl)
  unfold get_relevant_memories
  rw [if_neg hqne, if_neg hq]
  set kw := extract_keywords query with hkw
  set library := all_memories.filter (fun m => decide (m.importance < 4/5)) with hlib
  by_cases hl : library = []
  · rw [if_pos hl]
    refine ⟨by simp, by simp, by simp⟩
  · rw [if_neg hl]
    set scored := library.map (scoreMem kw) with hscored
    set sorted := scored.mergeSort (fun a b => decide (b.final_score ≤ a.final_score))
      with hsorted
    have hmemScored : ∀ x ∈ sorted, x.memory ∈ all_memories ∧
        x.memory.importance < 4/5 ∧
        x.similarity = calculate_similarity kw (extract_keywords x.memory.content) ∧
        x.final_score = calculate_similarity kw (extract_keywords x.memory.content) * (7/10)
          + x.memory.importance * (3/10) := by
      intro x hx
      rw [hsorted, List.mem_mergeSort, hscored, List.mem_map] at hx
      obtain ⟨m, hm, hxm⟩ := hx
      rw [hlib, List.mem_filter] at hm
      subst hxm
      refine ⟨hm.1, by simpa using hm.2, rfl, rfl⟩
    refine ⟨?_, ?_, ?_⟩
    · rw [List.length_take]
      omega
    · intro m hm
      have hm' := List.mem_of_mem_take hm
      rw [List.mem_map] at hm'
      obtain ⟨x, hx, hxm⟩ := hm'
      rw [List.mem_filter] at hx
      obtain ⟨hxs, hxsim⟩ := hx
      obtain ⟨h1, h2, h3, _⟩ := hmemScored x hxs
      subst hxm
      refine ⟨h1, h2, ?_⟩
      rw [← h3]
      simpa using hxsim
    · have hPW : sorted.Pairwise (fun a b => b.final_score ≤ a.final_score) := by
        have := @List.sorted_mergeSort ScoredMem
          (fun a b : ScoredMem => decide (b.final_score ≤ a.final_score))
          (fun a b c hab hbc => by
            simp only [decide_eq_true_eq] at hab hbc ⊢
            exact le_trans hbc hab)
          (fun a b => by
            simp only [Bool.or_eq_true, decide_eq_true_eq]
            exact le_total b.final_score a.final_score)
          scored
        rw [← hsorted] at this
        exact this.imp (fun h => by simpa using h)
      have hPWf : (sorted.filter (fun x => decide (0 < x.similarity))).Pairwise
          (fun a b => b.final_score ≤ a.final_score) :=
        hPW.sublist (List.filter_sublist _) |>.imp (fun h => h) |>.sublist (List.Sublist.refl _)
      have hPWf' : (sorted.filter (fun x => decide (0 < x.similarity))).Pairwise
          (fun a b =>
            calculate_similarity kw (extract_keywords b.memory.content) * (7/10)
                + b.memory.importance * (3/10)
              ≤ calculate_similarity kw (extract_keywords a.memory.content) * (7/10)
                + a.memory.importance * (3/10)) := by
        refine hPWf.imp_of_mem ?_
        intro a b ha hb hab
        have ha' := hmemScored a (List.mem_filter.mp ha).1
        have hb' := hmemScored b (List.mem_filter.mp hb).1
        rw [← ha'.2.2.2, ← hb'.2.2.2]
        exact hab
      have hmapPW := (@List.pairwise_map ScoredMem MemDict (fun x => x.memory)
        (fun a b =>
          calculate_similarity kw (extract_keywords b.content) * (7/10)
              + b.importance * (3/10)
            ≤ calculate_similarity kw (extract_keywords a.content) * (7/10)
              + a.importance * (3/10))
        (sorted.filter (fun x => decide (0 < x.similarity)))).mpr hPWf'
      exact hmapPW.sublist (List.take_sublist _ _)

/-- Witness for C8 at a concrete query and candidate pool. -/
theorem relevance_selector_spec_witness :
    (get_relevant_memories []
      [⟨1/2, "apple tart"⟩, ⟨9/10, "apple pie"⟩, ⟨1/10, "banana"⟩]
      "apple pie" 30).length ≤ 30 ∧
    (∀ m ∈ get_relevant_memories []
        [⟨1/2, "apple tart"⟩, ⟨9/10, "apple pie"⟩, ⟨1/10, "banana"⟩]
        "apple pie" 30,
      m ∈ [(⟨1/2, "apple tart"⟩ : MemDict), ⟨9/10, "apple pie"⟩, ⟨1/10, "banana"⟩] ∧
      m.importance < 4/5 ∧
      0 < calculate_similarity (extract_keywords "apple pie")
        (extract_keywords m.content)) ∧
    (get_relevant_memories []
      [⟨1/2, "apple tart"⟩, ⟨9/10, "apple pie"⟩, ⟨1/10, "banana"⟩]
      "apple pie" 30).Pairwise
      (fun a b =>
        calculate_similarity (extract_keywords "apple pie") (extract_keywords b.content) * (7/10)
            + b.importance * (3/10)
          ≤ calculate_similarity (extract_keywords "apple pie") (extract_keywords a.content) * (7/10)
            + a.importance * (3/10)) :=
  relevance_selector_spec []
    [⟨1/2, "apple tart"⟩, ⟨9/10, "apple pie"⟩, ⟨1/10, "banana"⟩]
    "apple pie" 30 (by decide)

/-! ### Temporal memory tree (`memory_plugins/tree_graph/schema/temporal_tree.py`)

The calendar arithmetic below reproduces the pieces of Python
`datetime.date` the tree reads: the proleptic-Gregorian ordinal
(`toordinal`, day 1 = 0001-01-01, a Monday), `weekday()`, and the ISO
week number of `isocalendar()`. -/

def isLeap (y : ℕ) : Bool := decide ((y % 4 = 0 ∧ y % 100 ≠ 0) ∨ y % 400 = 0)

def daysInMonth (y m : ℕ) : ℕ :=
  if m = 2 then (if isLeap y then 29 else 28)
  else if m = 4 ∨ m = 6 ∨ m = 9 ∨ m = 11 then 30
  else 31

def daysBeforeYear (y : ℕ) : ℕ :=
  365 * (y - 1) + (y - 1) / 4 - (y - 1) / 100 + (y - 1) / 400

def dayOfYear (d : Date) : ℕ :=
  (List.range (d.month - 1)).foldl (fun acc i => acc + daysInMonth d.year (i + 1)) 0
    + d.day

/-- `date.toordinal()`. -/
def toOrdinal (d : Date) : ℕ := daysBeforeYear d.year + dayOfYear d

/-- `date.weekday()`: Monday = 0. -/
def pyWeekday (d : Date) : ℕ := (toOrdinal d - 1) % 7

/-- Month/day reconstruction from a day-of-year (12 months of fuel). -/
def monthFromDoy : ℕ → ℕ → ℕ → ℕ → Date
  | 0, y, m, doy => ⟨y, m, doy⟩
  | fuel + 1, y, m, doy =>
    if doy ≤ daysInMonth y m then ⟨y, m, doy⟩
    else monthFromDoy fuel y (m + 1) (doy - daysInMonth y m)

/-- `date.fromordinal` by year scan (each step consumes at least 365
days of ordinal, so the ordinal itself is enough fuel). -/
def fromOrdinalGo : ℕ → ℕ → ℕ → Date
  | 0, y, n => ⟨y, 1, n⟩
  | fuel + 1, y, n =>
    let diy := if isLeap y then 366 else 365
    if n ≤ diy then monthFromDoy 12 y 1 n
    else fromOrdinalGo fuel (y + 1) (n - diy)

def fromOrdinal (n : ℕ) : Date := fromOrdinalGo n 1 n

/-- CPython `_isoweek1monday`: the ordinal of the Monday of ISO week 1
of the year. -/
def isoweek1monday (year : ℕ) : ℤ :=
  let firstday : ℤ := (daysBeforeYear year + 1 : ℕ)
  let firstweekday := (firstday + 6).fmod 7
  let week1monday := firstday - firstweekday
  if 3 < firstweekday then week1monday + 7 else week1monday

/-- `date.isocalendar()[1]`, the ISO week number (CPython algorithm;
Python `//` is floor division, hence `Int.fdiv`). -/
def isoWeek (d : Date) : ℕ :=
  let today : ℤ := (toOrdinal d : ℕ)
  let week := (today - isoweek1monday d.year).fdiv 7
  if week < 0 then
    (((today - isoweek1monday (d.year - 1)).fdiv 7) + 1).toNat
  else if 52 ≤ week ∧ isoweek1monday (d.year + 1) ≤ today then 1
  else (week + 1).toNat

/-- `dt - timedelta(days=dt.weekday())`: the Monday of the week of a
date. -/
def weekStart (d : Date) : Date := fromOrdinal (toOrdinal d - pyWeekday d)

/-- The four calendar keys of `TemporalMemoryTree._get_time_keys`,
kept as structured values: the string renderings `"%Y"`, `"%Y-%m"`,
`f"{year}-W{week:02d}"` and `"%Y-%m-%d"` are injective images of
these. -/
def yearKey (d : Date) : ℕ := d.year

def monthKey (d : Date) : ℕ × ℕ := (d.year, d.month)

def weekKey (d : Date) : ℕ × ℕ := (d.year, isoWeek d)

def dayKey (d : Date) : Date := d

/-- `TemporalMemoryTree` state.  `next_id` drives the `uuid4` counter
model for the lazily created hierarchy nodes. -/
structure TemporalMemoryTree where
  nodes : List (String × MemoryNode)
  year_index : List (ℕ × String)
  month_index : List ((ℕ × ℕ) × String)
  week_index : List ((ℕ × ℕ) × String)
  day_index : List (Date × String)
  root_children : List String
  next_id : ℕ

/-- `TemporalMemoryTree.__init__`. -/
def emptyTree : TemporalMemoryTree :=
  { nodes := []
    year_index := []
    month_index := []
    week_index := []
    day_index := []
    root_children := []
    next_id := 0 }

/-- A lazily created hierarchy node: a `MemoryNode` with the given
grain, timestamp, content and parent, all other fields the dataclass
defaults (the wall-clock `created_at`/`updated_at` defaults are opaque
to the tree and fixed at 0). -/
def mkHierNode (id grain : String) (timestamp : Date) (content : String)
    (parent : Option String) : MemoryNode :=
  { MemoryNode.mkDefault id timestamp 0 with
    time_grain := grain, content := content, parent_id := parent }

/-- Append a child id to a stored node
(`self.nodes[pid].children_ids.append(cid)`; a missing id would raise
in Python and is a no-op here, unreachable under the tree invariant). -/
def appendChild (nodes : List (String × MemoryNode)) (pid cid : String) :
    List (String × MemoryNode) :=
  match dictGet nodes pid with
  | some n => dictSet nodes pid { n with children_ids := n.children_ids ++ [cid] }
  | none => nodes

/-- `TemporalMemoryTree._ensure_time_hierarchy`: lazily create the
missing year, month, week and day nodes for a timestamp (keyed by the
calendar keys), linking each created node under its parent, and return
the day-node id. -/
noncomputable def ensure_time_hierarchy (t : TemporalMemoryTree) (dt : Date) :
    String × TemporalMemoryTree :=
  let t1 :=
    if (dictGet t.year_index (yearKey dt)).isSome then t
    else
      let yid := genId t.next_id
      let ynode := mkHierNode yid "year" ⟨dt.year, 1, 1⟩
        (Nat.repr dt.year ++ "年的记忆") none
      { t with
        nodes := dictSet t.nodes yid ynode
        year_index := dictSet t.year_index (yearKey dt) yid
        root_children := t.root_children ++ [yid]
        next_id := t.next_id + 1 }
  let year_id := (dictGet t1.year_index (yearKey dt)).getD ""
  let t2 :=
    if (dictGet t1.month_index (monthKey dt)).isSome then t1
    else
      let mid := genId t1.next_id
      let mnode := mkHierNode mid "month" ⟨dt.year, dt.month, 1⟩
        (Nat.repr dt.year ++ "年" ++ Nat.repr dt.month ++ "月的记忆") (some year_id)
      let t2a := { t1 with
        nodes := dictSet t1.nodes mid mnode
        month_index := dictSet t1.month_index (monthKey dt) mid
        next_id := t1.next_id + 1 }
      { t2a with nodes := appendChild t2a.nodes year_id mid }
  let month_id := (dictGet t2.month_index (monthKey dt)).getD ""
  let t3 :=
    if (dictGet t2.week_index (weekKey dt)).isSome then t2
    else
      let wid := genId t2.next_id
      let wnode := mkHierNode wid "week" (weekStart dt)
        (Nat.repr dt.year ++ "年第" ++ Nat.repr (isoWeek dt) ++ "周的记忆")
        (some month_id)
      let t3a := { t2 with
        nodes := dictSet t2.nodes wid wnode
        week_index := dictSet t2.week_index (weekKey dt) wid
        next_id := t2.next_id + 1 }
      { t3a with nodes := appendChild t3a.nodes month_id wid }
  let week_id := (dictGet t3.week_index (weekKey dt)).getD ""
  let t4 :=
    if (dictGet t3.day_index (dayKey dt)).isSome then t3
    else
      let did := genId t3.next_id
      let dnode := mkHierNode did "day" ⟨dt.year, dt.month, dt.day⟩
        (Nat.repr dt.month ++ "月" ++ Nat.repr dt.day ++ "日的记忆") (some week_id)
      let t4a := { t3 with
        nodes := dictSet t3.nodes did dnode
        day_index := dictSet t3.day_index (dayKey dt) did
        next_id := t3.next_id + 1 }
      { t4a with nodes := appendChild t4a.nodes week_id did }
  ((dictGet t4.day_index (dayKey dt)).getD "", t4)

/-- `TemporalMemoryTree._update_day_summary`: recompute the day-node
rollup; the top-3 child events by effective importance (Python sort is
stable, descending) joined with a full-width separator become the
content, the maximum child base importance becomes the importance.
A day with no children is left untouched. -/
noncomputable def update_day_summary (t : TemporalMemoryTree) (day_id : String) :
    TemporalMemoryTree :=
  match dictGet t.nodes day_id with
  | none => t
  | some day_node =>
    match day_node.children_ids.filterMap (fun cid => dictGet t.nodes cid) with
    | [] => t
    | e :: es =>
      let events := e :: es
      let top_events := (events.mergeSort (fun a b =>
        decide (MemoryNode.calculate_effective_importance b ≤
          MemoryNode.calculate_effective_importance a))).take 3
      let content := String.intercalate "；" (top_events.map (fun ev => ev.content))
      let imp := (es.map (fun ev => ev.base_importance)).foldl max e.base_importance
      let day_node' := { day_node with content := content, base_importance := imp }
      { t with nodes := dictSet t.nodes day_id day_node' }

/-- `TemporalMemoryTree.add_memory`: ensure the ancestor hierarchy,
reparent the node under its day node as an event, store it, register it
as a day child and refresh the day rollup. -/
noncomputable def add_memory (t : TemporalMemoryTree) (memory : MemoryNode) :
    String × TemporalMemoryTree :=
  let dg := ensure_time_hierarchy t memory.timestamp
  let m := { memory with parent_id := some dg.1, time_grain := "event" }
  let t2 := { dg.2 with nodes := dictSet dg.2.nodes m.id m }
  let t3 := { t2 with nodes := appendChild t2.nodes dg.1 m.id }
  (m.id, update_day_summary t3 dg.1)

/-- Number of stored nodes of a given time grain. -/
def countGrain (t : TemporalMemoryTree) (g : String) : ℕ :=
  (t.nodes.filter (fun kv => decide (kv.2.time_grain = g))).length

/-- The hierarchy nodes lazily created by the first insertion into an
empty tree (ids `uuid-0` … `uuid-3`). -/
def yearNode (d : Date) : MemoryNode :=
  mkHierNode (genId 0) "year" ⟨d.year, 1, 1⟩ (Nat.repr d.year ++ "年的记忆") none

def monthNode (d : Date) : MemoryNode :=
  mkHierNode (genId 1) "month" ⟨d.year, d.month, 1⟩
    (Nat.repr d.year ++ "年" ++ Nat.repr d.month ++ "月的记忆") (some (genId 0))

def weekNode (d : Date) : MemoryNode :=
  mkHierNode (genId 2) "week" (weekStart d)
    (Nat.repr d.year ++ "年第" ++ Nat.repr (isoWeek d) ++ "周的记忆") (some (genId 1))

def dayNode (d : Date) : MemoryNode :=
  mkHierNode (genId 3) "day" ⟨d.year, d.month, d.day⟩
    (Nat.repr d.month ++ "月" ++ Nat.repr d.day ++ "日的记忆") (some (genId 2))

/-- The stored form of an inserted event (reparented under the day
node, grain forced to `event`). -/
def eventNode (m : MemoryNode) : MemoryNode :=
  { m with parent_id := some (genId 3), time_grain := "event" }

/-- The tree produced by `_ensure_time_hierarchy` on the empty tree. -/
def hierTree (d : Date) : TemporalMemoryTree :=
  { nodes := [(genId 0, { yearNode d with children_ids := [genId 1] }),
              (genId 1, { monthNode d with children_ids := [genId 2] }),
              (genId 2, { weekNode d with children_ids := [genId 3] }),
              (genId 3, dayNode d)]
    year_index := [(yearKey d, genId 0)]
    month_index := [(monthKey d, genId 1)]
    week_index := [(weekKey d, genId 2)]
    day_index := [(dayKey d, genId 3)]
    root_children := [genId 0]
    next_id := 4 }

lemma ensure_empty (d : Date) :
    ensure_time_hierarchy emptyTree d = (genId 3, hierTree d) := by
  have g01 : genId 0 ≠ genId 1 := by decide
  have g10 : genId 1 ≠ genId 0 := by decide
  have g02 : genId 0 ≠ genId 2 := by decide
  have g20 : genId 2 ≠ genId 0 := by decide
  have g03 : genId 0 ≠ genId 3 := by decide
  have g30 : genId 3 ≠ genId 0 := by decide
  have g12 : genId 1 ≠ genId 2 := by decide
  have g21 : genId 2 ≠ genId 1 := by decide
  have g13 : genId 1 ≠ genId 3 := by decide
  have g31 : genId 3 ≠ genId 1 := by decide
  have g23 : genId 2 ≠ genId 3 := by decide
  have g32 : genId 3 ≠ genId 2 := by decide
  simp [ensure_time_hierarchy, emptyTree, hierTree, dictGet, dictSet, appendChild,
    mkHierNode, MemoryNode.mkDefault, yearNode, monthNode, weekNode, dayNode,
    g01, g10, g02, g20, g03, g30, g12, g21, g13, g31, g23, g32]

/-- The day node after the first insertion: one child, rollup content
and importance taken from that child. -/
def oneInsertDayNode (m : MemoryNode) : MemoryNode :=
  { dayNode m.timestamp with
    children_ids := [m.id]
    content := m.content
    base_importance := m.base_importance }

/-- The tree after inserting one event node `m` into the empty tree:
the four-node hierarchy chain, the event stored under the day node, and
the day rollup recomputed from the single child. -/
def oneInsertTree (m : MemoryNode) : TemporalMemoryTree :=
  { hierTree m.timestamp with nodes :=
      [(genId 0, { yearNode m.timestamp with children_ids := [genId 1] }),
       (genId 1, { monthNode m.timestamp with children_ids := [genId 2] }),
       (genId 2, { weekNode m.timestamp with children_ids := [genId 3] }),
       (genId 3, oneInsertDayNode m),
       (m.id, eventNode m)] }

lemma add_memory_empty (m : MemoryNode)
    (h0 : m.id ≠ genId 0) (h1 : m.id ≠ genId 1)
    (h2 : m.id ≠ genId 2) (h3 : m.id ≠ genId 3) :
    add_memory emptyTree m = (m.id, oneInsertTree m) := by
  have g01 : genId 0 ≠ genId 1 := by decide
  have g10 : genId 1 ≠ genId 0 := by decide
  have g02 : genId 0 ≠ genId 2 := by decide
  have g20 : genId 2 ≠ genId 0 := by decide
  have g03 : genId 0 ≠ genId 3 := by decide
  have g30 : genId 3 ≠ genId 0 := by decide
  have g12 : genId 1 ≠ genId 2 := by decide
  have g21 : genId 2 ≠ genId 1 := by decide
  have g13 : genId 1 ≠ genId 3 := by decide
  have g31 : genId 3 ≠ genId 1 := by decide
  have g23 : genId 2 ≠ genId 3 := by decide
  have g32 : genId 3 ≠ genId 2 := by decide
  have h0' : genId 0 ≠ m.id := Ne.symm h0
  have h1' : genId 1 ≠ m.id := Ne.symm h1
  have h2' : genId 2 ≠ m.id := Ne.symm h2
  have h3' : genId 3 ≠ m.id := Ne.symm h3
  simp [add_memory, ensure_empty, update_day_summary, appendChild, dictGet, dictSet,
    eventNode, oneInsertTree, oneInsertDayNode, hierTree, yearNode, monthNode, weekNode, dayNode,
    mkHierNode, MemoryNode.mkDefault, String.intercalate, String.intercalate.go,
    g01, g10, g02, g20, g03, g30, g12, g21, g13, g31, g23, g32,
    h0, h1, h2, h3, h0', h1', h2', h3']

lemma ensure_oneInsert (m : MemoryNode) :
    ensure_time_hierarchy (oneInsertTree m) m.timestamp
      = (genId 3, oneInsertTree m) := by
  simp [ensure_time_hierarchy, oneInsertTree, hierTree, dictGet]

/-- The day node after the second same-day insertion: two children in
insertion order, the maximum child importance, and a rollup content
`C` (the top-3 join, whose exact value the statement leaves open). -/
def twoInsertDayNode (m1 m2 : MemoryNode) (C : String) : MemoryNode :=
  { dayNode m1.timestamp with
    children_ids := [m1.id, m2.id]
    content := C
    base_importance := max m1.base_importance m2.base_importance }

/-- The tree after inserting two same-day events into the empty tree:
still exactly one year/month/week/day chain. -/
def twoInsertTree (m1 m2 : MemoryNode) (C : String) : TemporalMemoryTree :=
  { hierTree m1.timestamp with nodes :=
      [(genId 0, { yearNode m1.timestamp with children_ids := [genId 1] }),
       (genId 1, { monthNode m1.timestamp with children_ids := [genId 2] }),
       (genId 2, { weekNode m1.timestamp with children_ids := [genId 3] }),
       (genId 3, twoInsertDayNode m1 m2 C),
       (m1.id, eventNode m1),
       (m2.id, eventNode m2)] }

set_option maxHeartbeats 2000000 in
lemma add_memory_second (m1 m2 : MemoryNode) (hts : m2.timestamp = m1.timestamp)
    (ha0 : m1.id ≠ genId 0) (ha1 : m1.id ≠ genId 1)
    (ha2 : m1.id ≠ genId 2) (ha3 : m1.id ≠ genId 3)
    (hb0 : m2.id ≠ genId 0) (hb1 : m2.id ≠ genId 1)
    (hb2 : m2.id ≠ genId 2) (hb3 : m2.id ≠ genId 3)
    (hab : m1.id ≠ m2.id) :
    ∃ C, add_memory (oneInsertTree m1) m2 = (m2.id, twoInsertTree m1 m2 C) := by
  have g01 : genId 0 ≠ genId 1 := by decide
  have g10 : genId 1 ≠ genId 0 := by decide
  have g02 : genId 0 ≠ genId 2 := by decide
  have g20 : genId 2 ≠ genId 0 := by decide
  have g03 : genId 0 ≠ genId 3 := by decide
  have g30 : genId 3 ≠ genId 0 := by decide
  have g12 : genId 1 ≠ genId 2 := by decide
  have g21 : genId 2 ≠ genId 1 := by decide
  have g13 : genId 1 ≠ genId 3 := by decide
  have g31 : genId 3 ≠ genId 1 := by decide
  have g23 : genId 2 ≠ genId 3 := by decide
  have g32 : genId 3 ≠ genId 2 := by decide
  have ha0' : genId 0 ≠ m1.id := Ne.symm ha0
  have ha1' : genId 1 ≠ m1.id := Ne.symm ha1
  have ha2' : genId 2 ≠ m1.id := Ne.symm ha2
  have ha3' : genId 3 ≠ m1.id := Ne.symm ha3
  have hb0' : genId 0 ≠ m2.id := Ne.symm hb0
  have hb1' : genId 1 ≠ m2.id := Ne.symm hb1
  have hb2' : genId 2 ≠ m2.id := Ne.symm hb2
  have hb3' : genId 3 ≠ m2.id := Ne.symm hb3
  have hab' : m2.id ≠ m1.id := Ne.symm hab
  refine ⟨String.intercalate "；"
    ((([eventNode m1, eventNode m2].mergeSort (fun a b =>
      decide (MemoryNode.calculate_effective_importance b ≤
        MemoryNode.calculate_effective_importance a))).take 3).map
      (fun ev => ev.content)), ?_⟩
  simp only [add_memory]
  rw [hts, ensure_oneInsert]
  simp [hts, update_day_summary, appendChild,
    dictGet, dictSet, eventNode, oneInsertTree, oneInsertDayNode, twoInsertTree,
    twoInsertDayNode, hierTree, yearNode, monthNode, weekNode, dayNode, mkHierNode,
    MemoryNode.mkDefault,
    g01, g10, g02, g20, g03, g30, g12, g21, g13, g31, g23, g32,
    ha0, ha1, ha2, ha3, hb0, hb1, hb2, hb3, hab, hab',
    ha0', ha1', ha2', ha3', hb0', hb1', hb2', hb3']

/-- Claim C6: inserting two event memories with the same calendar-day
timestamp into an empty tree creates exactly one day, week, month and
year node — one shared ancestor chain — and both events hang off that
single day node; the day, week, month and year indexes each hold
exactly one entry keyed by the shared timestamp, the ancestor chain is
event → day → week → month → year → root, and the hierarchy was
created lazily by the first insertion only.  (The id hypotheses model
`uuid4` freshness: fresh ids never collide.) -/
theorem tree_same_day_single_chain (m1 m2 : MemoryNode)
    (hts : m2.timestamp = m1.timestamp)
    (ha0 : m1.id ≠ genId 0) (ha1 : m1.id ≠ genId 1)
    (ha2 : m1.id ≠ genId 2) (ha3 : m1.id ≠ genId 3)
    (hb0 : m2.id ≠ genId 0) (hb1 : m2.id ≠ genId 1)
    (hb2 : m2.id ≠ genId 2) (hb3 : m2.id ≠ genId 3)
    (hab : m1.id ≠ m2.id) :
    let t2 := (add_memory (add_memory emptyTree m1).2 m2).2
    countGrain t2 "year" = 1 ∧ countGrain t2 "month" = 1 ∧
    countGrain t2 "week" = 1 ∧ countGrain t2 "day" = 1 ∧
    t2.year_index = [(yearKey m1.timestamp, genId 0)] ∧
    t2.month_index = [(monthKey m1.timestamp, genId 1)] ∧
    t2.week_index = [(weekKey m1.timestamp, genId 2)] ∧
    t2.day_index = [(dayKey m1.timestamp, genId 3)] ∧
    (dictGet t2.nodes m1.id).map (fun n => (n.time_grain, n.parent_id))
      = some ("event", some (genId 3)) ∧
    (dictGet t2.nodes m2.id).map (fun n => (n.time_grain, n.parent_id))
      = some ("event", some (genId 3)) ∧
    (dictGet t2.nodes (genId 3)).map (fun n => (n.time_grain, n.parent_id, n.children_ids))
      = some ("day", some (genId 2), [m1.id, m2.id]) ∧
    (dictGet t2.nodes (genId 2)).map (fun n => (n.time_grain, n.parent_id, n.children_ids))
      = some ("week", some (genId 1), [genId 3]) ∧
    (dictGet t2.nodes (genId 1)).map (fun n => (n.time_grain, n.parent_id, n.children_ids))
      = some ("month", some (genId 0), [genId 2]) ∧
    (dictGet t2.nodes (genId 0)).map (fun n => (n.time_grain, n.parent_id, n.children_ids))
      = some ("year", none, [genId 1]) := by
  intro t2
  have h1 : (add_memory emptyTree m1).2 = oneInsertTree m1 := by
    rw [add_memory_empty m1 ha0 ha1 ha2 ha3]
  obtain ⟨C, hC⟩ := add_memory_second m1 m2 hts ha0 ha1 ha2 ha3 hb0 hb1 hb2 hb3 hab
  have h2 : t2 = twoInsertTree m1 m2 C := by
    show (add_memory (add_memory emptyTree m1).2 m2).2 = _
    rw [h1, hC]
  have ha0' : genId 0 ≠ m1.id := Ne.symm ha0
  have ha1' : genId 1 ≠ m1.id := Ne.symm ha1
  have ha2' : genId 2 ≠ m1.id := Ne.symm ha2
  have ha3' : genId 3 ≠ m1.id := Ne.symm ha3
  have hb0' : genId 0 ≠ m2.id := Ne.symm hb0
  have hb1' : genId 1 ≠ m2.id := Ne.symm hb1
  have hb2' : genId 2 ≠ m2.id := Ne.symm hb2
  have hb3' : genId 3 ≠ m2.id := Ne.symm hb3
  have hab' : m2.id ≠ m1.id := Ne.symm hab
  have g01 : genId 0 ≠ genId 1 := by decide
  have g10 : genId 1 ≠ genId 0 := by decide
  have g02 : genId 0 ≠ genId 2 := by decide
  have g20 : genId 2 ≠ genId 0 := by decide
  have g03 : genId 0 ≠ genId 3 := by decide
  have g30 : genId 3 ≠ genId 0 := by decide
  have g12 : genId 1 ≠ genId 2 := by decide
  have g21 : genId 2 ≠ genId 1 := by decide
  have g13 : genId 1 ≠ genId 3 := by decide
  have g31 : genId 3 ≠ genId 1 := by decide
  have g23 : genId 2 ≠ genId 3 := by decide
  have g32 : genId 3 ≠ genId 2 := by decide
  rw [h2]
  refine ⟨?_, ?_, ?_, ?_, rfl, rfl, rfl, rfl, ?_, ?_, ?_, ?_, ?_, ?_⟩ <;>
    simp [countGrain, twoInsertTree, twoInsertDayNode, hierTree, yearNode,
      monthNode, weekNode, dayNode, mkHierNode, MemoryNode.mkDefault, eventNode,
      dictGet,
      g01, g10, g02, g20, g03, g30, g12, g21, g13, g31, g23, g32,
      ha0, ha1, ha2, ha3, hb0, hb1, hb2, hb3, hab, hab',
      ha0', ha1', ha2', ha3', hb0', hb1', hb2', hb3']

/-- Witness for C6: two default event nodes with ids `a` and `b` on the
same calendar day. -/
theorem tree_same_day_single_chain_witness :
    let t2 := (add_memory (add_memory emptyTree
      (MemoryNode.mkDefault "a" ⟨2024, 1, 15⟩ 0)).2
      (MemoryNode.mkDefault "b" ⟨2024, 1, 15⟩ 0)).2
    countGrain t2 "year" = 1 ∧ countGrain t2 "month" = 1 ∧
    countGrain t2 "week" = 1 ∧ countGrain t2 "day" = 1 ∧
    t2.year_index = [(yearKey (MemoryNode.mkDefault "a" ⟨2024, 1, 15⟩ 0).timestamp, genId 0)] ∧
    t2.month_index = [(monthKey (MemoryNode.mkDefault "a" ⟨2024, 1, 15⟩ 0).timestamp, genId 1)] ∧
    t2.week_index = [(weekKey (MemoryNode.mkDefault "a" ⟨2024, 1, 15⟩ 0).timestamp, genId 2)] ∧
    t2.day_index = [(dayKey (MemoryNode.mkDefault "a" ⟨2024, 1, 15⟩ 0).timestamp, genId 3)] ∧
    (dictGet t2.nodes (MemoryNode.mkDefault "a" ⟨2024, 1, 15⟩ 0).id).map
      (fun n => (n.time_grain, n.parent_id)) = some ("event", some (genId 3)) ∧
    (dictGet t2.nodes (MemoryNode.mkDefault "b" ⟨2024, 1, 15⟩ 0).id).map
      (fun n => (n.time_grain, n.parent_id)) = some ("event", some (genId 3)) ∧
    (dictGet t2.nodes (genId 3)).map (fun n => (n.time_grain, n.parent_id, n.children_ids))
      = some ("day", some (genId 2),
        [(MemoryNode.mkDefault "a" ⟨2024, 1, 15⟩ 0).id,
         (MemoryNode.mkDefault "b" ⟨2024, 1, 15⟩ 0).id]) ∧
    (dictGet t2.nodes (genId 2)).map (fun n => (n.time_grain, n.parent_id, n.children_ids))
      = some ("week", some (genId 1), [genId 3]) ∧
    (dictGet t2.nodes (genId 1)).map (fun n => (n.time_grain, n.parent_id, n.children_ids))
      = some ("month", some (genId 0), [genId 2]) ∧
    (dictGet t2.nodes (genId 0)).map (fun n => (n.time_grain, n.parent_id, n.children_ids))
      = some ("year", none, [genId 1]) :=
  tree_same_day_single_chain
    (MemoryNode.mkDefault "a" ⟨2024, 1, 15⟩ 0)
    (MemoryNode.mkDefault "b" ⟨2024, 1, 15⟩ 0)
    rfl (by decide) (by decide) (by decide) (by decide)
    (by decide) (by decide) (by decide) (by decide) (by decide)
